import Mathlib

/-!
Verification development for the newsframes headline-analysis pipeline.

The definitions below are shallow embeddings of the JavaScript sources:
strings are Lean strings (lists of characters), JavaScript objects are
structures or association lists, and every external effect (the text
generation service, the durable store, the network transport) is passed
in explicitly as data, so that each node function becomes a pure total
function of its inputs.
-/

namespace NewsFrames

/-- Model of the JavaScript `text.includes(pat)` check for a literal
pattern: true iff `pat` occurs as a contiguous substring (the empty
pattern always occurs). -/
def occursB (pat : List Char) : List Char → Bool
  | [] => pat.isEmpty
  | c :: s => pat.isPrefixOf (c :: s) || occursB pat s

/-- Dollar-free left-to-right non-overlapping literal replacement: the
replacement is inserted verbatim.  This is the core of the replace
model below, to which the full model reduces when the replacement
string holds no active substitution pattern (`dollarInert`). -/
def replaceAllPos (pat rep : List Char) : List Char → List Char
  | [] => []
  | c :: s =>
      if pat.isPrefixOf (c :: s) then
        rep ++ replaceAllPos pat rep (s.drop (pat.length - 1))
      else
        c :: replaceAllPos pat rep s
  termination_by l => l.length
  decreasing_by
    all_goals simp only [List.length_drop, List.length_cons]
    all_goals omega

/-- The ECMAScript GetSubstitution expansion of a replacement string
for a regex with no capture groups (the sources build the pattern with
escapeRegExp, so it has none, and pass the replacement unescaped): a
dollar followed by a dollar, an ampersand, a backquote (code 96) or a
quote (code 39) stands for a literal dollar, the matched text `m`, the
part `pre` of the original string before the match, and the part
`post` after it; any other dollar — including one before a digit,
since there are no capture groups — is literal. -/
def substDollar (m pre post : List Char) : List Char → List Char
  | [] => []
  | [c] => [c]
  | c :: d :: rest =>
      if c = '$' then
        if d = '$' then '$' :: substDollar m pre post rest
        else if d = '&' then m ++ substDollar m pre post rest
        else if d = Char.ofNat 96 then pre ++ substDollar m pre post rest
        else if d = Char.ofNat 39 then post ++ substDollar m pre post rest
        else c :: d :: substDollar m pre post rest
      else c :: substDollar m pre post (d :: rest)

/-- Whether a replacement string holds no active substitution pattern,
so that the replace inserts it verbatim. -/
def dollarInert : List Char → Bool
  | [] => true
  | [_] => true
  | c :: d :: rest =>
      if c = '$' then
        if d = '$' ∨ d = '&' ∨ d = Char.ofNat 96 ∨ d = Char.ofNat 39 then false
        else dollarInert rest
      else dollarInert (d :: rest)

/-- Model of `text.replace(new RegExp(escapedPat, g-flag), rep)` for a
nonempty literal pattern, with ECMAScript dollar-substitution applied
to the replacement at every match: scan left to right, replacing every
non-overlapping occurrence of `pat` by the expanded `rep`; `pre`
accumulates the already-scanned part of the original string (feeding
the before-match substitution) and the fuel bounds the scan length. -/
def replaceAllPosJsGo (pat rep : List Char) : Nat → List Char → List Char → List Char
  | 0, _, _ => []
  | _ + 1, _, [] => []
  | fuel + 1, pre, c :: s =>
      if pat.isPrefixOf (c :: s) then
        substDollar pat pre (s.drop (pat.length - 1)) rep
          ++ replaceAllPosJsGo pat rep fuel (pre ++ pat) (s.drop (pat.length - 1))
      else
        c :: replaceAllPosJsGo pat rep fuel (pre ++ [c]) s

/-- The nonempty-pattern replace at fuel equal to the text length (one
unit of fuel is spent per character scanned, so this fuel always
suffices). -/
def replaceAllPosJs (pat rep pre l : List Char) : List Char :=
  replaceAllPosJsGo pat rep l.length pre l

/-- The empty-pattern global replace (an empty regex matches at every
position): the expanded replacement is inserted before every character
and at the end, each insertion seeing its own before/after split of
the original string. -/
def replaceAllNilJs (rep : List Char) : List Char → List Char → List Char
  | pre, [] => substDollar [] pre [] rep
  | pre, c :: s =>
      substDollar [] pre (c :: s) rep ++ c :: replaceAllNilJs rep (pre ++ [c]) s

/-- Model of the JavaScript global literal-pattern replace
`text.replace(new RegExp(escapeRegExp(pat), g-flag), rep)`, with
ECMAScript dollar-substitution in the unescaped replacement string and
the empty-pattern behaviour. -/
def replaceAll (pat rep s : List Char) : List Char :=
  if pat.isEmpty then replaceAllNilJs rep [] s
  else replaceAllPosJs pat rep [] s

/-- String-level wrapper of `occursB`. -/
def includesStr (pat s : String) : Bool := occursB pat.data s.data

/-- String-level wrapper of `replaceAll`. -/
def replaceAllStr (pat rep s : String) : String :=
  String.mk (replaceAll pat.data rep.data s.data)

/-- Model of the JavaScript idiom `v || d` for an optional string `v`
(the empty string is falsy and also falls back to the default). -/
def jsOrElse (v : Option String) (d : String) : String :=
  match v with
  | some s => if s = "" then d else s
  | none => d

/-- One iteration of the reversion loop of `revertMainSynthesizedHeadline`
(src/node_functions.js) and `properNounReplacer2Node` (the inlined
handler draft): if the placeholder occurs in the current text, replace
all its occurrences by the original proper noun and record the
replacement. -/
def revertStep (acc : String × List (String × String)) (e : String × String) :
    String × List (String × String) :=
  if includesStr e.1 acc.1 then
    (replaceAllStr e.1 e.2 acc.1, acc.2 ++ [e])
  else acc

/-- The full reversion loop over the placeholder map (object key
enumeration order is the list order), returning the final text and the
replacements that were made. -/
def revertLoop (properNounMap : List (String × String)) (text : String) :
    String × List (String × String) :=
  properNounMap.foldl revertStep (text, [])

/-- Final text of the reversion loop. -/
def revertText (properNounMap : List (String × String)) (text : String) : String :=
  (revertLoop properNounMap text).1

/-- The details object written by the reversion nodes (fields that a
given branch leaves out are `none` / empty). -/
structure ReverterDetails where
  status : String
  original_text : Option String
  original_text_with_placeholders : Option String
  final_text : Option String
  replacements_made : List (String × String)
  properNoun_map_used : List (String × String)
deriving Repr, DecidableEq

/-- The partial state update returned by a reversion node: the final
headline output and the details object. -/
structure Replacer2Update where
  flipped_headline : String
  details : ReverterDetails
deriving Repr, DecidableEq

/-- Model of `revertMainSynthesizedHeadline(state, nodeConfig)` from
src/node_functions.js: `textToProcess` is the state value at the
configured input key (`none` when undefined), `properNounMap` the
resolved placeholder map (defaulted to empty), `dn` the node display
name used in the error fallback text. -/
def revertMainSynthesizedHeadline (dn : String) (textToProcess : Option String)
    (properNounMap : List (String × String)) : Replacer2Update :=
  match textToProcess with
  | some t =>
      if t = "" then
        { flipped_headline := jsOrElse textToProcess ("Error: Missing text for " ++ dn)
          details := { status := "Skipped - no input text"
                       original_text := none, original_text_with_placeholders := none
                       final_text := none, replacements_made := []
                       properNoun_map_used := [] } }
      else
        let r := revertLoop properNounMap t
        { flipped_headline := r.1
          details := { status := if properNounMap.isEmpty then "Skipped - no properNoun map"
                                 else "Completed"
                       original_text := none
                       original_text_with_placeholders := some t
                       final_text := some r.1
                       replacements_made := r.2
                       properNoun_map_used := properNounMap } }
  | none =>
      { flipped_headline := jsOrElse textToProcess ("Error: Missing text for " ++ dn)
        details := { status := "Skipped - no input text"
                     original_text := none, original_text_with_placeholders := none
                     final_text := none, replacements_made := []
                     properNoun_map_used := [] } }

/-- The slice of the shared state read by `properNounReplacer2Node` in
the inlined single-file pipeline draft. -/
structure Replacer2State where
  flipped_headline_with_placeholders : Option String
  properNoun_map : List (String × String)

/-- Model of `properNounReplacer2Node(state)` from the inlined pipeline
draft: treats a missing or empty synthesis output as missing input,
returns the text unchanged when the placeholder map is empty, and
otherwise runs the reversion loop. -/
def properNounReplacer2Node (st : Replacer2State) : Replacer2Update :=
  match st.flipped_headline_with_placeholders with
  | some t =>
      if t = "" then
        { flipped_headline := jsOrElse st.flipped_headline_with_placeholders
            "Error: Missing text for properNoun reversion"
          details := { status := "Skipped - no input text"
                       original_text := some t, original_text_with_placeholders := none
                       final_text := some t, replacements_made := []
                       properNoun_map_used := [] } }
      else if st.properNoun_map.isEmpty then
        { flipped_headline := t
          details := { status := "Skipped - no properNoun map"
                       original_text := some t, original_text_with_placeholders := none
                       final_text := some t, replacements_made := []
                       properNoun_map_used := [] } }
      else
        let r := revertLoop st.properNoun_map t
        { flipped_headline := r.1
          details := { status := "Completed"
                       original_text := none
                       original_text_with_placeholders := some t
                       final_text := some r.1
                       replacements_made := r.2
                       properNoun_map_used := st.properNoun_map } }
  | none =>
      { flipped_headline := jsOrElse st.flipped_headline_with_placeholders
          "Error: Missing text for properNoun reversion"
        details := { status := "Skipped - no input text"
                     original_text := none, original_text_with_placeholders := none
                     final_text := none, replacements_made := []
                     properNoun_map_used := [] } }

/-- A string with no bracket characters (the placeholder tokens of the
anonymization protocol are bracketed, segments of ordinary text and the
proper nouns themselves are not). -/
def Bracketless (s : List Char) : Prop := ∀ c ∈ s, c ≠ '[' ∧ c ≠ ']'

instance (s : List Char) : Decidable (Bracketless s) := by
  unfold Bracketless; infer_instance

/-- A well-formed placeholder token in the shape the anonymization step
requests from the generation service: an opening bracket, a bracket-free
body, and a closing bracket. -/
def WfToken (t : List Char) : Prop := ∃ b, t = '[' :: b ++ [']'] ∧ Bracketless b

/-- Executable check equivalent to `WfToken`. -/
def wfTokenCheck (t : List Char) : Bool :=
  match t with
  | [] => false
  | c :: rest =>
      decide (c = '[') && decide (rest.getLast? = some ']')
        && decide (Bracketless rest.dropLast)

instance (t : List Char) : Decidable (WfToken t) :=
  decidable_of_iff (wfTokenCheck t = true) (by
    constructor
    · intro h
      match t with
      | [] => simp [wfTokenCheck] at h
      | c :: rest =>
          simp only [wfTokenCheck, Bool.and_eq_true, decide_eq_true_eq] at h
          obtain ⟨⟨hc, hlast⟩, hbl⟩ := h
          have hne : rest ≠ [] := by
            intro hr; rw [hr] at hlast; simp at hlast
          have hg : rest.getLast hne = ']' := by
            have := List.getLast?_eq_getLast rest hne
            rw [this] at hlast
            exact (Option.some_injective _ hlast).symm ▸ rfl
          refine ⟨rest.dropLast, ?_, hbl⟩
          rw [hc]
          have := List.dropLast_append_getLast hne
          rw [hg] at this
          exact congrArg (fun l => '[' :: l) this.symm
    · rintro ⟨b, rfl, hb⟩
      simp [wfTokenCheck, List.getLast?_concat, List.dropLast_concat, hb])

/-- A decomposition piece of an anonymized text: either a literal
bracket-free segment or a reference to the map entry whose token stands
at this position. -/
inductive Piece where
  | seg (s : List Char)
  | tok (i : Nat)
deriving Repr, DecidableEq

/-- Validity of one piece with respect to a placeholder map. -/
def PieceOk (m : List (String × String)) : Piece → Prop
  | Piece.seg s => Bracketless s
  | Piece.tok i => i < m.length

instance (m : List (String × String)) (p : Piece) : Decidable (PieceOk m p) := by
  cases p <;> unfold PieceOk <;> infer_instance

/-- Token of the map entry at an index, as a character list. -/
def tokAt (m : List (String × String)) (i : Nat) : List Char :=
  ((m[i]?).map (fun e => e.1.data)).getD []

/-- Original proper noun of the map entry at an index, as a character
list. -/
def origAt (m : List (String × String)) (i : Nat) : List Char :=
  ((m[i]?).map (fun e => e.2.data)).getD []

/-- Token of the map entry at an index, as a string. -/
def tokStr (m : List (String × String)) (i : Nat) : String :=
  ((m[i]?).map Prod.fst).getD ""

/-- Rendering of a decomposition where the tokens of the entries listed
in `done` have already been replaced by their originals. -/
def renderMix (m : List (String × String)) (done : List String) : List Piece → List Char
  | [] => []
  | Piece.seg s :: ps => s ++ renderMix m done ps
  | Piece.tok i :: ps =>
      (if tokStr m i ∈ done then origAt m i else tokAt m i) ++ renderMix m done ps

/-- Rendering with every token piece shown as its placeholder token: the
anonymized text. -/
def renderTok (m : List (String × String)) : List Piece → List Char
  | [] => []
  | Piece.seg s :: ps => s ++ renderTok m ps
  | Piece.tok i :: ps => tokAt m i ++ renderTok m ps

/-- Rendering with every token piece shown as its original proper noun:
the de-anonymized text. -/
def renderOrig (m : List (String × String)) : List Piece → List Char
  | [] => []
  | Piece.seg s :: ps => s ++ renderOrig m ps
  | Piece.tok i :: ps => origAt m i ++ renderOrig m ps

/-- The hypothesis of the reversion laws: the placeholder map has
pairwise-distinct well-formed bracketed tokens with bracket-free
originals, and `pieces` is a decomposition whose token references are
in range and whose literal segments are bracket-free.  This formalizes
the specification invariant that tokens are unique and cannot overlap
or nest within the text. -/
def DecompOk (m : List (String × String)) (pieces : List Piece) : Prop :=
  (∀ p ∈ pieces, PieceOk m p)
  ∧ (∀ e ∈ m, WfToken e.1.data ∧ Bracketless e.2.data)
  ∧ (m.map Prod.fst).Nodup

instance (m : List (String × String)) (pieces : List Piece) : Decidable (DecompOk m pieces) := by
  unfold DecompOk; infer_instance

/-- The fields of the generation call result that
`properNounReplacer1Node` inspects (the anonymization reply requested
from the service): an error marker, the placeholder text, and the
token-to-original map (string entries, in object key order).  A `none`
field models an absent property. -/
structure ReplacerReply where
  error : Option String
  text_with_placeholders : Option String
  properNoun_map : Option (List (String × String))
deriving Repr, DecidableEq

/-- The JavaScript success test of the anonymization node:
`result && !result.error && result.text_with_placeholders &&
result.properNoun_map` (truthiness: a missing or empty error string
passes, the placeholder text must be a nonempty string, and any present
map object — even empty — is truthy). -/
def replyOk (r : ReplacerReply) : Bool :=
  (match r.error with
   | some e => e == ""
   | none => true)
  && (match r.text_with_placeholders with
      | some s => s != ""
      | none => false)
  && r.properNoun_map.isSome

/-- The partial state update returned by the anonymization node. -/
structure Anon1Update where
  properNoun_replacement1_result : ReplacerReply
  headline_with_placeholders : String
  properNoun_map : List (String × String)
deriving Repr, DecidableEq

/-- Model of `properNounReplacer1Node(state)` from the inlined pipeline
draft: the generation call outcome is passed in as `result`.  On a
shape-valid result the node publishes the placeholder text and the map;
otherwise it falls back to the original headline and an empty map. -/
def properNounReplacer1Node (input_headline : String) (result : ReplacerReply) : Anon1Update :=
  if replyOk result then
    { properNoun_replacement1_result := result
      headline_with_placeholders := result.text_with_placeholders.getD ""
      properNoun_map := result.properNoun_map.getD [] }
  else
    { properNoun_replacement1_result := result
      headline_with_placeholders := input_headline
      properNoun_map := [] }

mutual

/-- Model of a JavaScript JSON value.  Numbers are kept as their numeric
lexeme: no part of the pipeline does arithmetic on parsed numbers, so
only their identity and truthiness matter.  Arrays and objects carry
their own spine types so that every function on values is structurally
recursive (and hence evaluates inside the kernel). -/
inductive JsValue where
  | null
  | bool (b : Bool)
  | num (lexeme : String)
  | str (s : String)
  | arr (elems : JsItems)
  | obj (fields : JsFields)
deriving DecidableEq

/-- Spine of a JavaScript array. -/
inductive JsItems where
  | nil
  | cons (v : JsValue) (rest : JsItems)
deriving DecidableEq

/-- Spine of a JavaScript object: ordered key-value fields. -/
inductive JsFields where
  | nil
  | cons (key : String) (v : JsValue) (rest : JsFields)
deriving DecidableEq

end

/-- The fields of an object spine as an association list. -/
def JsFields.toList : JsFields → List (String × JsValue)
  | JsFields.nil => []
  | JsFields.cons k v r => (k, v) :: r.toList

/-- Build an object spine from an association list. -/
def JsFields.ofList : List (String × JsValue) → JsFields
  | [] => JsFields.nil
  | (k, v) :: r => JsFields.cons k v (JsFields.ofList r)

/-- The elements of an array spine as a list. -/
def JsItems.toList : JsItems → List JsValue
  | JsItems.nil => []
  | JsItems.cons v r => v :: r.toList

/-- Build an array spine from a list. -/
def JsItems.ofList : List JsValue → JsItems
  | [] => JsItems.nil
  | v :: r => JsItems.cons v (JsItems.ofList r)

/-- Object value from an association list. -/
def JsValue.mkObj (fs : List (String × JsValue)) : JsValue :=
  JsValue.obj (JsFields.ofList fs)

/-- Array value from a list. -/
def JsValue.mkArr (es : List JsValue) : JsValue :=
  JsValue.arr (JsItems.ofList es)

/-- Whether a numeric lexeme denotes zero (every digit of the mantissa
is 0): used only for JavaScript truthiness. -/
def numIsZero (lex : String) : Bool :=
  (lex.data.takeWhile (fun c => c != 'e' && c != 'E')).all
    (fun c => c == '0' || c == '.' || c == '-' || c == '+')

/-- JavaScript truthiness of a value. -/
def truthy : JsValue → Bool
  | JsValue.null => false
  | JsValue.bool b => b
  | JsValue.num lex => !(numIsZero lex)
  | JsValue.str s => s != ""
  | JsValue.arr _ => true
  | JsValue.obj _ => true

/-- Property access `v[k]` on an object (`none` models `undefined`;
for duplicate keys the last one wins, as after `JSON.parse`). -/
def jsGetField : JsValue → String → Option JsValue
  | JsValue.obj fields, k =>
      ((fields.toList.reverse).find? (fun e => e.1 == k)).map (fun e => e.2)
  | _, _ => none

/-- Index access `v[i]` on an array. -/
def jsGetIndex : JsValue → Nat → Option JsValue
  | JsValue.arr es, i => es.toList[i]?
  | _, _ => none

/-- Lookup in an association-list model of a plain object or of the
shared state record (`none` models `undefined`). -/
def stateGet : List (String × JsValue) → String → Option JsValue
  | [], _ => none
  | e :: st, k => if e.1 = k then some e.2 else stateGet st k

/-- Truthiness of a state field. -/
def stateTruthy (st : List (String × JsValue)) (k : String) : Bool :=
  match stateGet st k with
  | some v => truthy v
  | none => false

/-- Property assignment on an association-list object: replaces the
first binding in place, or appends when the key is absent. -/
def jsSet : List (String × JsValue) → String → JsValue → List (String × JsValue)
  | [], k, v => [(k, v)]
  | e :: st, k, v => if e.1 = k then (k, v) :: st else e :: jsSet st k v

/-- Property deletion on an association-list object. -/
def jsRemove (st : List (String × JsValue)) (k : String) : List (String × JsValue) :=
  st.filter (fun e => e.1 != k)

mutual

/-- Template-string coercion of a value, as in the backtick interpolation
of error messages (an approximation for arrays; every coercion the
claims exercise is of a string). -/
def jsToString : JsValue → String
  | JsValue.null => "null"
  | JsValue.bool b => if b then "true" else "false"
  | JsValue.num lex => lex
  | JsValue.str s => s
  | JsValue.arr es => jsToStringItems es
  | JsValue.obj _ => "[object Object]"

/-- Comma-joined coercion of array elements. -/
def jsToStringItems : JsItems → String
  | JsItems.nil => ""
  | JsItems.cons v JsItems.nil => jsToString v
  | JsItems.cons v rest => jsToString v ++ "," ++ jsToStringItems rest

end

/-- Hexadecimal digit for the stringifier. -/
def hexDigit (n : Nat) : Char :=
  if n < 10 then Char.ofNat (48 + n) else Char.ofNat (87 + n)

/-- JSON string escaping of one character, as in `JSON.stringify`. -/
def escapeChar (c : Char) : List Char :=
  if c = '"' then ['\\', '"']
  else if c = '\\' then ['\\', '\\']
  else if c = '\n' then ['\\', 'n']
  else if c = '\r' then ['\\', 'r']
  else if c = '\t' then ['\\', 't']
  else if c = '\x08' then ['\\', 'b']
  else if c = '\x0c' then ['\\', 'f']
  else if c.toNat < 32 then
    ['\\', 'u', '0', '0', hexDigit (c.toNat / 16), hexDigit (c.toNat % 16)]
  else [c]

/-- JSON string literal serialization. -/
def escapeString (s : String) : List Char :=
  '"' :: s.data.foldr (fun c acc => escapeChar c ++ acc) ['"']

mutual

/-- Model of `JSON.stringify(v)` (compact form, no spacing). -/
def jsonStringify : JsValue → List Char
  | JsValue.null => ['n', 'u', 'l', 'l']
  | JsValue.bool true => ['t', 'r', 'u', 'e']
  | JsValue.bool false => ['f', 'a', 'l', 's', 'e']
  | JsValue.num lex => lex.data
  | JsValue.str s => escapeString s
  | JsValue.arr es => '[' :: stringifyItems es ++ [']']
  | JsValue.obj fs => '{' :: stringifyFields fs ++ ['}']

/-- Serialize array elements, comma separated. -/
def stringifyItems : JsItems → List Char
  | JsItems.nil => []
  | JsItems.cons v JsItems.nil => jsonStringify v
  | JsItems.cons v rest => jsonStringify v ++ ',' :: stringifyItems rest

/-- Serialize object fields, comma separated. -/
def stringifyFields : JsFields → List Char
  | JsFields.nil => []
  | JsFields.cons k v JsFields.nil => escapeString k ++ ':' :: jsonStringify v
  | JsFields.cons k v rest =>
      escapeString k ++ ':' :: jsonStringify v ++ ',' :: stringifyFields rest

end

/-- JSON whitespace. -/
def jsonWs (c : Char) : Bool := c == ' ' || c == '\t' || c == '\n' || c == '\r'

/-- Skip leading JSON whitespace. -/
def skipWs (s : List Char) : List Char := s.dropWhile jsonWs

/-- Value of a hexadecimal digit character. -/
def hexVal (c : Char) : Option Nat :=
  if 48 ≤ c.toNat && c.toNat ≤ 57 then some (c.toNat - 48)
  else if 97 ≤ c.toNat && c.toNat ≤ 102 then some (c.toNat - 87)
  else if 65 ≤ c.toNat && c.toNat ≤ 70 then some (c.toNat - 55)
  else none

/-- Parse the body of a JSON string literal after its opening quote,
decoding escapes; returns the decoded characters and the rest of the
input after the closing quote. -/
def parseStringBody : Nat → List Char → Option (List Char × List Char)
  | 0, _ => none
  | _, [] => none
  | fuel + 1, c :: rest =>
      if c = '"' then some ([], rest)
      else if c = '\\' then
        match rest with
        | [] => none
        | e :: rest2 =>
            let esc : Option (List Char × List Char) :=
              if e = '"' then some (['"'], rest2)
              else if e = '\\' then some (['\\'], rest2)
              else if e = '/' then some (['/'], rest2)
              else if e = 'b' then some (['\x08'], rest2)
              else if e = 'f' then some (['\x0c'], rest2)
              else if e = 'n' then some (['\n'], rest2)
              else if e = 'r' then some (['\r'], rest2)
              else if e = 't' then some (['\t'], rest2)
              else if e = 'u' then
                match rest2 with
                | h1 :: h2 :: h3 :: h4 :: rest3 =>
                    match hexVal h1, hexVal h2, hexVal h3, hexVal h4 with
                    | some a, some b2, some c2, some d =>
                        some ([Char.ofNat (((a * 16 + b2) * 16 + c2) * 16 + d)], rest3)
                    | _, _, _, _ => none
                | _ => none
              else none
            match esc with
            | some (cs, rest3) =>
                match parseStringBody fuel rest3 with
                | some (tail, rem) => some (cs ++ tail, rem)
                | none => none
            | none => none
      else
        match parseStringBody fuel rest with
        | some (tail, rem) => some (c :: tail, rem)
        | none => none

/-- Parse the integer part of a JSON number. -/
def parseIntPart : List Char → Option (List Char × List Char)
  | '0' :: r => some (['0'], r)
  | c :: r =>
      if c.isDigit then some ((c :: r).takeWhile Char.isDigit, (c :: r).dropWhile Char.isDigit)
      else none
  | [] => none

/-- Parse the optional fraction part of a JSON number. -/
def parseFracPart : List Char → Option (List Char × List Char)
  | '.' :: r =>
      match r.takeWhile Char.isDigit with
      | [] => none
      | ds => some ('.' :: ds, r.dropWhile Char.isDigit)
  | s => some ([], s)

/-- Parse the optional exponent part of a JSON number. -/
def parseExpPart : List Char → Option (List Char × List Char)
  | c :: r =>
      if c = 'e' || c = 'E' then
        let sr : List Char × List Char :=
          match r with
          | '+' :: rr => (['+'], rr)
          | '-' :: rr => (['-'], rr)
          | _ => ([], r)
        match sr.2.takeWhile Char.isDigit with
        | [] => none
        | ds => some (c :: sr.1 ++ ds, sr.2.dropWhile Char.isDigit)
      else some ([], c :: r)
  | [] => some ([], [])

/-- Parse a full JSON number lexeme. -/
def parseNumber (s : List Char) : Option (List Char × List Char) :=
  let sr : List Char × List Char :=
    match s with
    | '-' :: r => (['-'], r)
    | _ => ([], s)
  match parseIntPart sr.2 with
  | none => none
  | some (ip, r1) =>
      match parseFracPart r1 with
      | none => none
      | some (fp, r2) =>
          match parseExpPart r2 with
          | none => none
          | some (ep, r3) => some (sr.1 ++ ip ++ fp ++ ep, r3)

mutual

/-- Fuel-based recursive-descent model of `JSON.parse` on one value;
returns the value and the unconsumed input. -/
def parseValue : Nat → List Char → Option (JsValue × List Char)
  | 0, _ => none
  | fuel + 1, s0 =>
      match skipWs s0 with
      | [] => none
      | '{' :: rest => parseObjRest fuel rest
      | '[' :: rest => parseArrRest fuel rest
      | '"' :: rest =>
          match parseStringBody (rest.length + 1) rest with
          | some (cs, rem) => some (JsValue.str (String.mk cs), rem)
          | none => none
      | c :: rest =>
          if ['t', 'r', 'u', 'e'].isPrefixOf (c :: rest) then
            some (JsValue.bool true, (c :: rest).drop 4)
          else if ['f', 'a', 'l', 's', 'e'].isPrefixOf (c :: rest) then
            some (JsValue.bool false, (c :: rest).drop 5)
          else if ['n', 'u', 'l', 'l'].isPrefixOf (c :: rest) then
            some (JsValue.null, (c :: rest).drop 4)
          else
            match parseNumber (c :: rest) with
            | some (lex, rem) => some (JsValue.num (String.mk lex), rem)
            | none => none

/-- Parse the remainder of an object after the opening brace. -/
def parseObjRest : Nat → List Char → Option (JsValue × List Char)
  | 0, _ => none
  | fuel + 1, s =>
      match skipWs s with
      | '}' :: rest => some (JsValue.obj JsFields.nil, rest)
      | s2 => parseMembers fuel s2 []

/-- Parse one or more key-value members of an object. -/
def parseMembers : Nat → List Char → List (String × JsValue) →
    Option (JsValue × List Char)
  | 0, _, _ => none
  | fuel + 1, s, acc =>
      match skipWs s with
      | '"' :: rest =>
          match parseStringBody (rest.length + 1) rest with
          | none => none
          | some (key, r1) =>
              match skipWs r1 with
              | ':' :: r2 =>
                  match parseValue fuel r2 with
                  | none => none
                  | some (v, r3) =>
                      match skipWs r3 with
                      | ',' :: r4 => parseMembers fuel r4 (acc ++ [(String.mk key, v)])
                      | '}' :: r4 =>
                          some (JsValue.mkObj (acc ++ [(String.mk key, v)]), r4)
                      | _ => none
              | _ => none
      | _ => none

/-- Parse the remainder of an array after the opening bracket. -/
def parseArrRest : Nat → List Char → Option (JsValue × List Char)
  | 0, _ => none
  | fuel + 1, s =>
      match skipWs s with
      | ']' :: rest => some (JsValue.arr JsItems.nil, rest)
      | s2 => parseElems fuel s2 []

/-- Parse one or more elements of an array. -/
def parseElems : Nat → List Char → List JsValue → Option (JsValue × List Char)
  | 0, _, _ => none
  | fuel + 1, s, acc =>
      match parseValue fuel s with
      | none => none
      | some (v, r1) =>
          match skipWs r1 with
          | ',' :: r2 => parseElems fuel r2 (acc ++ [v])
          | ']' :: r2 => some (JsValue.mkArr (acc ++ [v]), r2)
          | _ => none

end

/-- Model of `JSON.parse(s)`: `none` models a thrown syntax error.  The
fuel is an upper bound on the number of parser steps; four steps per
input character is sufficient since every step consumes input before
recursing. -/
def jsonParse (s : String) : Option JsValue :=
  match parseValue (s.length * 4 + 16) s.data with
  | some (v, rest) => if skipWs rest = [] then some v else none
  | none => none

/-- Whitespace trim on a character list (model of the JavaScript
`String.prototype.trim`). -/
def trimL (s : List Char) : List Char :=
  ((s.dropWhile Char.isWhitespace).reverse.dropWhile Char.isWhitespace).reverse

/-- String-level trim. -/
def strTrim (s : String) : String := String.mk (trimL s.data)

/-- The fence-stripping of `extractAndParseJson` (src/llm_utils.js):
trim, drop a leading three-backtick-json fence (7 characters) or a bare
three-backtick fence (3 characters), drop a trailing three-backtick
fence, trim again. -/
def cleanFences (text : String) : String :=
  let t1 := trimL text.data
  let t2 :=
    if ("```json".data).isPrefixOf t1 then t1.drop 7
    else if ("```".data).isPrefixOf t1 then t1.drop 3
    else t1
  let t3 := if ("```".data).isSuffixOf t2 then t2.take (t2.length - 3) else t2
  String.mk (trimL t3)

/-- Index of the first opening brace (JavaScript `indexOf`). -/
def firstBraceIdx (s : List Char) : Option Nat := s.findIdx? (fun c => c == '{')

/-- Index of the last closing brace (JavaScript `lastIndexOf`). -/
def lastBraceIdx (s : List Char) : Option Nat :=
  match s.reverse.findIdx? (fun c => c == '}') with
  | some k => some (s.length - 1 - k)
  | none => none

/-- The substring from the first opening brace to the last closing
brace, under the guard `firstBrace !== -1 && lastBrace > firstBrace`. -/
def braceSubstring (d : List Char) : Option (List Char) :=
  match firstBraceIdx d, lastBraceIdx d with
  | some i, some j => if i < j then some ((d.drop i).take (j + 1 - i)) else none
  | _, _ => none

/-- A JavaScript `null` result collapses to `none`: the JavaScript
function signals failure by returning `null`, which is also what a
parsed JSON `null` literal produces, so the two are indistinguishable
to callers. -/
def collapseNull : Option JsValue → Option JsValue
  | some JsValue.null => none
  | v => v

/-- Model of `extractAndParseJson(text)` from src/llm_utils.js (the
graph-builder pipeline): empty input fails; otherwise strip fences,
try to parse the first-to-last-brace substring, fall back to parsing
the whole cleaned text when the substring parse fails or no brace pair
exists. -/
def extractAndParseJson (text : String) : Option JsValue :=
  if text = "" then none
  else
    collapseNull
      ((braceSubstring (cleanFences text).data).elim
        (jsonParse (cleanFences text))
        (fun sub => (jsonParse (String.mk sub)).orElse
          (fun _ => jsonParse (cleanFences text))))

/-- The parsing algorithm exactly as the specification words it: strip
fence markers, locate the first opening and last closing brace, attempt
to parse that substring as structured data, and fail otherwise.  This
definition follows the specification text and exists to be compared
with `extractAndParseJson`, the definition from the source. -/
def extractAndParseJsonSpec (text : String) : Option JsValue :=
  if text = "" then none
  else
    collapseNull
      ((braceSubstring (cleanFences text).data).elim none
        (fun sub => jsonParse (String.mk sub)))

/-- Outcome of the `fetch` call inside `callModel`: either the transport
throws, or a response arrives with a success flag, a status code and a
body text. -/
inductive FetchOutcome where
  | netThrow (msg : String)
  | response (ok : Bool) (status : Nat) (body : String)

/-- Return value of `callModel`: either the parsed structured reply, or
the normalized failure object `{ error, rawContent, fullResponse? }`
(the claims' `FailureResult`; `fullResponse` is only attached by the
finish-reason and empty-content branches). -/
inductive CallResult where
  | parsed (v : JsValue)
  | failure (error : String) (rawContent : JsValue) (fullResponse : Option JsValue)

/-- The error detail attached to a non-success response status:
`JSON.stringify(errorJson.error || errorJson)` when the body parses,
else the first 200 characters of the body. -/
def statusErrorDetail (body : String) : String :=
  match jsonParse body with
  | some j =>
      match jsGetField j "error" with
      | some e => if truthy e then String.mk (jsonStringify e) else String.mk (jsonStringify j)
      | none => String.mk (jsonStringify j)
  | none => String.mk (body.data.take 200)

/-- The optional chain `responseJson?.candidates?.[0]?.content?.parts?.[0]?.text`. -/
def geminiRawContent (j : JsValue) : Option JsValue :=
  (((((jsGetField j "candidates").bind (fun c => jsGetIndex c 0)).bind
      (fun c => jsGetField c "content")).bind
      (fun c => jsGetField c "parts")).bind
      (fun p => jsGetIndex p 0)).bind
      (fun p => jsGetField p "text")

/-- The optional chain `responseJson?.candidates?.[0]?.finishReason`. -/
def geminiFinishReason (j : JsValue) : Option JsValue :=
  ((jsGetField j "candidates").bind (fun c => jsGetIndex c 0)).bind
    (fun c => jsGetField c "finishReason")

/-- The guard `finishReason && finishReason !== "STOP" && finishReason
!== "MAX_TOKENS"`. -/
def finishBlocked : Option JsValue → Bool
  | none => false
  | some (JsValue.str s) => s != "" && s != "STOP" && s != "MAX_TOKENS"
  | some v => truthy v

/-- Template display of the finish reason (`undefined` when absent). -/
def frDisplay : Option JsValue → String
  | some v => jsToString v
  | none => "undefined"

/-- The error message of the abnormal-finish-reason branch. -/
def blockedMessage (fr : Option JsValue) : String :=
  match fr with
  | some (JsValue.str "SAFETY") => "Content generation stopped due to safety settings."
  | some (JsValue.str "RECITATION") => "Content generation stopped due to recitation policy."
  | fr2 => "Content generation stopped due to: " ++ frDisplay fr2 ++ "."

/-- The raw content attached by the abnormal-finish-reason branch
(`rawContent || Blocked-by message`). -/
def blockedRaw (raw fr : Option JsValue) : JsValue :=
  match raw with
  | some v => if truthy v then v else JsValue.str ("Blocked by " ++ frDisplay fr ++ ".")
  | none => JsValue.str ("Blocked by " ++ frDisplay fr ++ ".")

/-- Stands for the engine-specific message of the exception thrown by
`JSON.parse` on a malformed response body (its exact text is
environment-dependent and outside the model). -/
def jsonParseExceptionMessage : String := "Unexpected token in JSON"

/-- Model of `callModel` from src/llm_utils.js (the graph-builder
pipeline, lines building the Gemini request and normalizing its reply).
The message list only shapes the outbound request, so it is abstracted
away; the transport outcome is the explicit `outcome` argument.  Every
branch returns a value — the JavaScript function catches all exceptions
— so the model is a total function. -/
def callModel (hasApiKey : Bool) (outcome : FetchOutcome) : CallResult :=
  if !hasApiKey then CallResult.failure "Missing GEMINI_API_KEY" (JsValue.str "") none
  else
    match outcome with
    | FetchOutcome.netThrow msg =>
        CallResult.failure ("Network or unexpected error in callModel: " ++ msg)
          (JsValue.str "") none
    | FetchOutcome.response ok status body =>
        if !ok then
          CallResult.failure ("Model API error: " ++ toString status ++ ". Details: "
            ++ statusErrorDetail body) (JsValue.str body) none
        else
          match jsonParse body with
          | none =>
              CallResult.failure ("Network or unexpected error in callModel: "
                ++ jsonParseExceptionMessage) (JsValue.str "") none
          | some j =>
              if finishBlocked (geminiFinishReason j) then
                CallResult.failure (blockedMessage (geminiFinishReason j))
                  (blockedRaw (geminiRawContent j) (geminiFinishReason j)) (some j)
              else
                match geminiRawContent j with
                | some (JsValue.str s) =>
                    if strTrim s = "" then
                      CallResult.failure "Model returned empty or invalid content"
                        (JsValue.str s) (some j)
                    else
                      match extractAndParseJson s with
                      | some v => CallResult.parsed v
                      | none =>
                          CallResult.failure "Failed to parse JSON response from model"
                            (JsValue.str s) none
                | some v =>
                    CallResult.failure "Model returned empty or invalid content"
                      (if truthy v then v else JsValue.str "") (some j)
                | none =>
                    CallResult.failure "Model returned empty or invalid content"
                      (JsValue.str "") (some j)

/-- One analyzer sub-task config of the parallel group coordinator
(graph_config.json `analyzerTasks` entry): its output state key, its
display name, and whether a prompt config is present. -/
structure AnalyzerTaskM where
  stateOutputKey : String
  displayName : String
  hasPromptConfig : Bool

/-- The `stateInputArgs` of the coordinator node config: optional state
key names for the placeholder headline and the raw input headline. -/
structure CoordArgs where
  headline_with_placeholders : Option String
  input_headline : Option String

/-- The coordinator node config. -/
structure CoordConfig where
  id : String
  displayName : String
  stateInputArgs : Option CoordArgs
  analyzerTasks : List AnalyzerTaskM

/-- Truthiness test of one configured input key: the key must itself be
a truthy (nonempty) name and the state value at it truthy. -/
def argKeyHit (st : List (String × JsValue)) (k : Option String) : Bool :=
  match k with
  | some key => key != "" && stateTruthy st key
  | none => false

/-- The fallback resolution `state.headline_with_placeholders ||
state.input_headline || ""`. -/
def fallbackHeadline (st : List (String × JsValue)) : JsValue :=
  if stateTruthy st "headline_with_placeholders" then
    (stateGet st "headline_with_placeholders").getD JsValue.null
  else if stateTruthy st "input_headline" then
    (stateGet st "input_headline").getD JsValue.null
  else JsValue.str ""

/-- The headline resolution at the top of the coordinator node
(graph_builder.js): configured placeholder key first, configured input
key second, then the state fallbacks. -/
def resolveHeadlineToAnalyze (cfg : CoordConfig) (st : List (String × JsValue)) : JsValue :=
  match cfg.stateInputArgs with
  | some a =>
      if argKeyHit st a.headline_with_placeholders then
        (stateGet st (a.headline_with_placeholders.getD "")).getD JsValue.null
      else if argKeyHit st a.input_headline then
        (stateGet st (a.input_headline.getD "")).getD JsValue.null
      else fallbackHeadline st
  | none => fallbackHeadline st

/-- The value assigned to a task's output key: the prompt-config-missing
error object when the task has no prompt config, else the outcome of
its own generation call (`oracle i` for the i-th task, modeling
`await callModel(messages)` — `callModel` always returns a value, so
every settled promise is fulfilled). -/
def taskResult (oracle : Nat → JsValue) (i : Nat) (task : AnalyzerTaskM) : JsValue :=
  if task.hasPromptConfig then oracle i
  else JsValue.mkObj [("error", JsValue.str ("Prompt config missing for " ++ task.displayName))]

/-- The error messages pushed by the sub-tasks, in task order (the
JavaScript pushes happen as each promise resolves; the order inside
the list is not observable by any claim). -/
def coordErrorMessages (tasks : List AnalyzerTaskM) (oracle : Nat → JsValue) : List JsValue :=
  (tasks.enum).foldr
    (fun ita acc =>
      if ita.2.hasPromptConfig
          && truthy ((jsGetField (oracle ita.1) "error").getD JsValue.null) then
        JsValue.str (ita.2.displayName ++ ": "
          ++ jsToString ((jsGetField (oracle ita.1) "error").getD JsValue.null)) :: acc
      else acc) []

/-- Model of the `parallel_llm_group_coordinator` node function from
src/graph_builder.js: resolve the headline, then either mark every task
with the no-input error, do nothing for an empty task list, or collect
every task's own generation outcome into its distinct output key via
`Promise.allSettled` + `Object.assign` (modeled as in-order assignment;
the `update` object is an association list). -/
def parallel_llm_group_coordinator (cfg : CoordConfig) (st : List (String × JsValue))
    (oracle : Nat → JsValue) : List (String × JsValue) :=
  let h := resolveHeadlineToAnalyze cfg st
  let base : List (String × JsValue) :=
    [("error_messages", JsValue.mkArr []), ("headlineToAnalyze", h)]
  if !truthy h && !cfg.analyzerTasks.isEmpty then
    let upd := cfg.analyzerTasks.foldl
      (fun acc task => jsSet acc task.stateOutputKey
        (JsValue.mkObj [("error", JsValue.str "No input headline for analysis."),
                        ("rawContent", JsValue.str "")])) base
    jsSet upd "error_messages"
      (JsValue.mkArr (cfg.analyzerTasks.map
        (fun task => JsValue.str (task.displayName ++ ": No input headline for analysis."))))
  else if cfg.analyzerTasks.isEmpty then base
  else
    let upd := (cfg.analyzerTasks.enum).foldl
      (fun acc ita => jsSet acc ita.2.stateOutputKey (taskResult oracle ita.1 ita.2)) base
    jsSet upd "error_messages" (JsValue.mkArr (coordErrorMessages cfg.analyzerTasks oracle))

/-- Outcome of the DynamoDB `client.put(params).promise()` call: it
either resolves or throws with a message. -/
inductive PutOutcome where
  | ok
  | errThrow (msg : String)

/-- The status object returned by `saveHeadlineData` (src/aws_utils.js);
the stack-trace `details` field of the catch branch is
environment-dependent and not modeled. -/
structure SaveStatus where
  success : Bool
  message : Option String
  headline_id : Option String
  saved_item_keys : Option (List String)
deriving Repr, DecidableEq

/-- The `dbAttributeMapping` object of `saveHeadlineData`, in key
insertion order: package key to DynamoDB attribute name. -/
def dbAttributeMapping : List (String × String) :=
  [("input_headline", "input_headline"),
   ("main_flipped_headline_from_state", "flipped_headline"),
   ("speculative_reframing_reverted_headline", "speculative_reframing_reverted_headline_db"),
   ("episodic_thematic_reverted_headline", "episodic_thematic_reverted_headline_db"),
   ("violence_type_reverted_headline", "violence_type_reverted_headline_db"),
   ("cognitive_frames_reverted_headline", "cognitive_frames_reverted_db"),
   ("euphemism_reverted_headline", "euphemism_reverted_db")]

/-- The value test of the mapping loop: `null` values and empty or
whitespace-only strings are not written (an absent key is handled
before this test). -/
def isSkippedValue : JsValue → Bool
  | JsValue.null => true
  | JsValue.str s => strTrim s == ""
  | _ => false

/-- One iteration of the `dbAttributeMapping` loop of
`saveHeadlineData`: write the package value under the mapped attribute
name unless the key is absent or the value is skipped. -/
def saveMapStep (dataToSave : List (String × JsValue))
    (item : List (String × JsValue)) (me : String × String) : List (String × JsValue) :=
  match stateGet dataToSave me.1 with
  | some v => if isSkippedValue v then item else jsSet item me.2 v
  | none => item

/-- The `raw_analysis_results` step of `saveHeadlineData`: a truthy
object-typed value is stored under `raw_analysis_data`. -/
def rawAnalysisStep (dataToSave item : List (String × JsValue)) : List (String × JsValue) :=
  match stateGet dataToSave "raw_analysis_results" with
  | some (JsValue.obj fs) => jsSet item "raw_analysis_data" (JsValue.obj fs)
  | some (JsValue.arr es) => jsSet item "raw_analysis_data" (JsValue.arr es)
  | _ => item

/-- The `itemToSave` object assembled by `saveHeadlineData`: the fresh
id, the input headline and the timestamp, then the mapped optional
attributes, then the raw analysis data. -/
def buildItemToSave (dataToSave : List (String × JsValue)) (uuid timestamp : String) :
    List (String × JsValue) :=
  rawAnalysisStep dataToSave
    (dbAttributeMapping.foldl (saveMapStep dataToSave)
      [("headline_id", JsValue.str uuid),
       ("input_headline", (stateGet dataToSave "input_headline").getD JsValue.null),
       ("created_at", JsValue.str timestamp)])

/-- Model of `saveHeadlineData(dataToSave)` from src/aws_utils.js.  The
fresh uuid and the timestamp are explicit inputs; the second component
is the item handed to the store client (`none` when the early
missing-input return fires and no write is attempted). -/
def saveHeadlineData (dataToSave : List (String × JsValue)) (uuid timestamp : String)
    (put : PutOutcome) : SaveStatus × Option (List (String × JsValue)) :=
  if !(stateTruthy dataToSave "input_headline") then
    ({ success := false, message := some "Database error: input_headline is required.",
       headline_id := none, saved_item_keys := none }, none)
  else
    match put with
    | PutOutcome.ok =>
        ({ success := true, message := none, headline_id := some uuid,
           saved_item_keys := some ((buildItemToSave dataToSave uuid timestamp).map Prod.fst) },
         some (buildItemToSave dataToSave uuid timestamp))
    | PutOutcome.errThrow m =>
        ({ success := false, message := some ("Database error: " ++ m),
           headline_id := none, saved_item_keys := none },
         some (buildItemToSave dataToSave uuid timestamp))

/-- Model of `saveAllToDynamoDBNode(state, nodeConfig)` from
src/node_functions.js: the resolved data package is the `pkg` argument
(`none` when missing or not an object); returns the output state key
and the status object placed there. -/
def saveAllToDynamoDBNode (outKey : Option String) (pkg : Option (List (String × JsValue)))
    (uuid timestamp : String) (put : PutOutcome) : String × SaveStatus :=
  let key := jsOrElse outKey "db_save_status"
  match pkg with
  | none =>
      (key, { success := false,
              message := some "Internal error: Data package for saver missing.",
              headline_id := none, saved_item_keys := none })
  | some data =>
      if !(stateTruthy data "input_headline_for_saver")
          && !(stateTruthy data "input_headline") then
        (key, { success := false,
                message := some
                  "Critical error: input_headline not found in data package for DB save.",
                headline_id := none, saved_item_keys := none })
      else
        let finalData :=
          match stateGet data "input_headline_for_saver" with
          | some v =>
              if truthy v then
                jsRemove (jsSet data "input_headline" v) "input_headline_for_saver"
              else data
          | none => data
        (key, (saveHeadlineData finalData uuid timestamp put).1)

/-- String startsWith as used by the handler cascade. -/
def startsWithStr (p s : String) : Bool := p.data.isPrefixOf s.data

/-- The truthy-and-startsWith guard on the synthesis fallback marker. -/
def synthFallbackMarker (v : Option String) : Bool :=
  match v with
  | some s => (s != "") && startsWithStr "Alternative perspective unavailable (Error:" s
  | none => false

/-- The truthy-and-includes guard on the reverter status. -/
def reverterSkippedMarker (v : Option String) : Bool :=
  match v with
  | some s => (s != "") && includesStr "Skipped" s
  | none => false

/-- The `db_save_status && !db_save_status.success` guard. -/
def dbSaveFailed (v : Option SaveStatus) : Bool :=
  match v with
  | some s => !s.success
  | none => false

/-- The error-truthiness of an optionally-chained state field
(`finalState.x?.error`). -/
def optErr (v : Option JsValue) : Bool :=
  match v with
  | some j => truthy ((jsGetField j "error").getD JsValue.null)
  | none => false

/-- The final-state fields the response cascade of the pipeline handler
inspects after a successful graph run. -/
structure FinalStateView where
  properNoun_replacement1_result : Option JsValue
  analysis1_result : Option JsValue
  analysis2_result : Option JsValue
  analysis3_result : Option JsValue
  synthesis_result : Option JsValue
  flipped_headline_with_placeholders : Option String
  properNoun_replacement2_status : Option String
  db_save_status : Option SaveStatus

/-- The `overallStatusMessage` cascade of the pipeline handler: the
database warning is the last case, reached only when every earlier step
succeeded. -/
def overallStatusMessage (fs : FinalStateView) : String :=
  if optErr fs.properNoun_replacement1_result then
    "Initial properNoun replacement failed."
  else if optErr fs.analysis1_result && optErr fs.analysis2_result
      && optErr fs.analysis3_result then
    "Both analysis steps failed."
  else if optErr fs.synthesis_result
      || synthFallbackMarker fs.flipped_headline_with_placeholders then
    "Synthesis failed or encountered an error."
  else if reverterSkippedMarker fs.properNoun_replacement2_status then
    "Final properNoun reversion was skipped or had issues."
  else if dbSaveFailed fs.db_save_status then
    "Processing completed, but failed to save results to database."
  else "Processing successful"

/-- The HTTP status code of the handler response on a completed graph
run: the source initializes `httpStatusCode` to 200 and never changes
it on this path, for any final state. -/
def handlerHttpStatusCode (_fs : FinalStateView) : Nat := 200

/-- Modelled from the spec: the pipeline runner (the graph `invoke`
loop of the workflow library, which is an external dependency and not
part of the repository sources).  Spec section 4.7: states are step
ids plus an implicit terminal marker, transitions are unconditional
directed edges taken once the source step's function returns, and the
runner enforces a maximum step count, failing the whole run with a
diagnosable error when it is exceeded.  The handlers pass the ceiling
as `recursionLimit` and catch the resulting error. -/
structure RunnerGraph (σ : Type) where
  nodes : List (String × (σ → σ))
  edges : List (String × String)
  entry : String

/-- The implicit terminal marker (the END state of spec section 4.7). -/
def endMarker : String := "__end__"

/-- The unconditional outgoing transition of a step. -/
def nextNode {σ : Type} (g : RunnerGraph σ) (id : String) : Option String :=
  (g.edges.find? (fun e => e.1 == id)).map (fun e => e.2)

/-- The state-transforming function of a step. -/
def nodeFn {σ : Type} (g : RunnerGraph σ) (id : String) : Option (σ → σ) :=
  (g.nodes.find? (fun e => e.1 == id)).map (fun e => e.2)

/-- Errors a run can fail with as a whole. -/
inductive RunError where
  | recursionLimitReached
  | unknownNode (id : String)
deriving Repr, DecidableEq

/-- Modelled from the spec: the runner loop.  Each executed step
consumes one unit of the ceiling; reaching the terminal marker returns
the final state, exhausting the ceiling fails the whole run with the
ceiling-exceeded error, and no partial state is returned on failure. -/
def invokeGo {σ : Type} (g : RunnerGraph σ) : Nat → String → σ → Except RunError σ
  | fuel, cur, s =>
      if cur = endMarker then Except.ok s
      else
        match fuel with
        | 0 => Except.error RunError.recursionLimitReached
        | fuel + 1 =>
            match nodeFn g cur, nextNode g cur with
            | some f, some nxt => invokeGo g fuel nxt (f s)
            | _, _ => Except.error (RunError.unknownNode cur)

/-- Modelled from the spec: `app.invoke(initialState, recursionLimit)`. -/
def invoke {σ : Type} (g : RunnerGraph σ) (s0 : σ) (recursionLimit : Nat) :
    Except RunError σ :=
  invokeGo g recursionLimit g.entry s0

/-- Whether a run reaches the terminal marker within `n` steps. -/
def reachesEndWithin {σ : Type} (g : RunnerGraph σ) (s0 : σ) (n : Nat) : Bool :=
  match invokeGo g n g.entry s0 with
  | Except.ok _ => true
  | Except.error _ => false

/-- Structural well-formedness of a runner graph: every node has an
outgoing edge, every edge leads to a node or the terminal marker, and
the entry is a node (the spec's structural-completeness requirement on
the configuration). -/
def wellFormedGraph {σ : Type} (g : RunnerGraph σ) : Bool :=
  (g.nodes.all (fun e => (nextNode g e.1).isSome))
  && (g.edges.all (fun e => e.2 == endMarker || (g.nodes.map Prod.fst).contains e.2))
  && ((g.nodes.map Prod.fst).contains g.entry)

/-- One node definition from graph_config.json as `buildGraph` reads
it. -/
structure NodeDefM where
  id : String
  displayName : String
  type : String
  functionName : Option String
deriving Repr, DecidableEq

/-- The function names registered in `customNodeFunctions`
(src/node_functions.js). -/
def customNodeFunctionNames : List String :=
  ["revertProperNouns", "revertGenericAnalyzerHeadline",
   "collectAndVerifyDataForSaver", "saveAllToDynamoDB"]

/-- The node function installed by the `buildGraph` switch for one node
config.  The missing-local-function and unrecognized-type cases install
synthesized error-reporting pass-through functions instead of failing
construction. -/
inductive BuiltNode where
  | llmAgent (id : String)
  | localFn (id functionName : String)
  | missingLocalFn (id functionName : String)
  | parallelCoordinator (id : String)
  | passThrough (id type : String)
deriving Repr, DecidableEq

/-- The `switch (nodeConfig.type)` of `buildGraph`
(src/graph_builder.js): a missing `functionName` indexes
`customNodeFunctions` with `undefined`. -/
def buildNode (nc : NodeDefM) : BuiltNode :=
  if nc.type = "llm_agent" then BuiltNode.llmAgent nc.id
  else if nc.type = "local_function" then
    match nc.functionName with
    | some fn =>
        if customNodeFunctionNames.contains fn then BuiltNode.localFn nc.id fn
        else BuiltNode.missingLocalFn nc.id fn
    | none => BuiltNode.missingLocalFn nc.id "undefined"
  else if nc.type = "parallel_llm_group_coordinator" then BuiltNode.parallelCoordinator nc.id
  else BuiltNode.passThrough nc.id nc.type

/-- The update produced at run time by the synthesized node of a
missing local function. -/
def missingLocalFnUpdate (id functionName : String) : List (String × JsValue) :=
  [(id ++ "_error",
    JsValue.str ("Configuration error: Local function " ++ functionName ++ " not found.")),
   ("error_messages",
    JsValue.mkArr [JsValue.str ("Configuration error for " ++ id ++ ": Local function "
      ++ functionName ++ " not found.")])]

/-- The graph configuration as loaded from graph_config.json. -/
structure GraphConfigM where
  nodeDefinitions : List NodeDefM
  graphEdges : List (String × String)
  entryPointNodeId : Option String

/-- The compiled graph: installed node functions, resolved entry point,
and the edges that survived endpoint filtering. -/
structure BuiltGraph where
  builtNodes : List (String × BuiltNode)
  entry : String
  edges : List (String × String)

/-- Model of `buildGraph()` from src/graph_builder.js: construction
throws only for an empty node list; unknown entry points fall back to
the first node, edges with undefined endpoints are skipped with a
warning, and every node config — including ones referencing missing
local functions or carrying unrecognized types — gets a node installed
(the library `compile()` call is modeled as succeeding). -/
def buildGraph (cfg : GraphConfigM) : Except String BuiltGraph :=
  if cfg.nodeDefinitions.isEmpty then
    Except.error "No nodeDefinitions found in graph_config.json. Cannot build graph."
  else
    Except.ok
      { builtNodes := cfg.nodeDefinitions.map (fun nc => (nc.id, buildNode nc))
        entry :=
          match cfg.entryPointNodeId with
          | some e =>
              if e != "" && (cfg.nodeDefinitions.map NodeDefM.id).contains e then e
              else ((cfg.nodeDefinitions.head?).map NodeDefM.id).getD ""
          | none => ((cfg.nodeDefinitions.head?).map NodeDefM.id).getD ""
        edges := cfg.graphEdges.filter (fun e =>
          (cfg.nodeDefinitions.map NodeDefM.id).contains e.1
          && (e.2 == "__end__" || (cfg.nodeDefinitions.map NodeDefM.id).contains e.2)) }

/-- A configuration whose only node references a local function that is
not registered. -/
def badLocalFnConfig : GraphConfigM :=
  { nodeDefinitions := [{ id := "reverter",
                          displayName := "Reverter",
                          type := "local_function",
                          functionName := some "doesNotExist" }],
    graphEdges := [("reverter", "__end__")],
    entryPointNodeId := some "reverter" }

/-- A five-step linear graph over `Nat` states. -/
def linearGraph5 : RunnerGraph Nat :=
  { nodes := [("n1", fun s => s + 1), ("n2", fun s => s + 1), ("n3", fun s => s + 1),
      ("n4", fun s => s + 1), ("n5", fun s => s + 1)],
    edges := [("n1", "n2"), ("n2", "n3"), ("n3", "n4"), ("n4", "n5"), ("n5", "__end__")],
    entry := "n1" }

/-- A concrete three-task coordinator configuration (the three parallel
analyzers of graph_config.json). -/
def coordCfgExample : CoordConfig :=
  { id := "parallel_analyzers_coordinator", displayName := "Parallel Analyzers",
    stateInputArgs := none,
    analyzerTasks :=
      [{ stateOutputKey := "cognitive_frames_analysis_result",
         displayName := "Cognitive Frames", hasPromptConfig := true },
       { stateOutputKey := "speculative_reframing_result",
         displayName := "Speculative Reframing", hasPromptConfig := true },
       { stateOutputKey := "euphemism_analysis_result",
         displayName := "Euphemism", hasPromptConfig := true }] }

/-- A concrete input state for the coordinator. -/
def coordStExample : List (String × JsValue) :=
  [("input_headline", JsValue.str "Dog attacks 4-year-old causing injuries")]

/-- Concrete call outcomes: the second task's generation call fails,
the others return a structured result. -/
def coordOracleExample : Nat → JsValue := fun i =>
  if i = 1 then
    JsValue.mkObj [("error", JsValue.str "Model API error: 500"),
                   ("rawContent", JsValue.str "")]
  else JsValue.mkObj [("frame_type", JsValue.str "Conflict")]

/-- The reversion loop over an empty map is the identity on the text. -/
theorem revertLoop_nil (t : String) : revertLoop [] t = (t, []) := rfl

/-- CLAIM C5 counterexample: the claim says the reversion operation with
an empty placeholder map returns every text string unchanged, but on the
empty string the node takes the missing-input branch (JavaScript
falsiness of the empty string) and returns an error marker instead. -/
theorem revert_empty_string_not_identity :
    (properNounReplacer2Node
        { flipped_headline_with_placeholders := some "", properNoun_map := [] }).flipped_headline
      ≠ "" := by
  decide

/-- CLAIM C5 (amended): for every nonempty text, reversion with an empty
placeholder map returns the text unchanged and reports the skipped
status; a missing or empty input text is reported via the
no-input status value (the node returns normally in every case). -/
theorem revert_empty_map_identity (dn t : String) (properNounMap : List (String × String))
    (ht : t ≠ "") :
    (revertMainSynthesizedHeadline dn (some t) []).flipped_headline = t
    ∧ (revertMainSynthesizedHeadline dn (some t) []).details.status
        = "Skipped - no properNoun map"
    ∧ (revertMainSynthesizedHeadline dn none properNounMap).details.status
        = "Skipped - no input text"
    ∧ (revertMainSynthesizedHeadline dn (some "") properNounMap).details.status
        = "Skipped - no input text" := by
  refine ⟨?_, ?_, ?_, ?_⟩
  · simp [revertMainSynthesizedHeadline, ht, revertLoop_nil]
  · simp [revertMainSynthesizedHeadline, ht]
  · rfl
  · rfl

/-- Witness for `revert_empty_map_identity` at a concrete input. -/
theorem revert_empty_map_identity_witness :
    (revertMainSynthesizedHeadline "3. properNoun Reverter (Final)" (some "abc") []).flipped_headline
      = "abc"
    ∧ (revertMainSynthesizedHeadline "3. properNoun Reverter (Final)" none
        [("[A]", "Alice")]).details.status = "Skipped - no input text" := by
  have h := revert_empty_map_identity "3. properNoun Reverter (Final)" "abc"
    [("[A]", "Alice")] (by decide)
  exact ⟨h.1, h.2.2.1⟩

theorem replaceAllPos_nil (pat rep : List Char) : replaceAllPos pat rep [] = [] := by
  rw [replaceAllPos]

theorem substDollar_inert (m pre post : List Char) :
    ∀ (n : Nat) (l : List Char), l.length ≤ n → dollarInert l = true →
      substDollar m pre post l = l := by
  intro n
  induction n with
  | zero =>
      intro l hl _
      have hnil : l = [] := List.eq_nil_of_length_eq_zero (Nat.le_zero.mp hl)
      subst hnil; rfl
  | succ n ih =>
      intro l hl hin
      match l with
      | [] => rfl
      | [c] => rfl
      | c :: d :: rest =>
          by_cases hc : c = '$'
          · by_cases hd : d = '$' ∨ d = '&' ∨ d = Char.ofNat 96 ∨ d = Char.ofNat 39
            · rw [dollarInert, if_pos hc, if_pos hd] at hin
              exact Bool.noConfusion hin
            · rw [dollarInert, if_pos hc, if_neg hd] at hin
              push_neg at hd
              obtain ⟨h1, h2, h3, h4⟩ := hd
              rw [substDollar, if_pos hc, if_neg h1, if_neg h2, if_neg h3, if_neg h4,
                ih rest (by simp at hl ⊢; omega) hin]
          · rw [dollarInert, if_neg hc] at hin
            rw [substDollar, if_neg hc, ih (d :: rest) (by simp at hl ⊢; omega) hin]

theorem replaceAllPosJsGo_inert (pat rep : List Char) (hrep : dollarInert rep = true) :
    ∀ (fuel : Nat) (pre l : List Char), l.length ≤ fuel →
      replaceAllPosJsGo pat rep fuel pre l = replaceAllPos pat rep l := by
  have hsub : ∀ m pre post, substDollar m pre post rep = rep :=
    fun m pre post => substDollar_inert m pre post rep.length rep (le_refl _) hrep
  intro fuel
  induction fuel with
  | zero =>
      intro pre l hl
      have hnil : l = [] := List.eq_nil_of_length_eq_zero (Nat.le_zero.mp hl)
      subst hnil
      rw [replaceAllPosJsGo, replaceAllPos]
  | succ fuel ih =>
      intro pre l hl
      match l with
      | [] => rw [replaceAllPosJsGo, replaceAllPos]
      | c :: s =>
          rw [replaceAllPosJsGo, replaceAllPos]
          by_cases hp : pat.isPrefixOf (c :: s)
          · rw [if_pos hp, if_pos hp, hsub,
              ih (pre ++ pat) (s.drop (pat.length - 1))
                (by simp only [List.length_drop] at hl ⊢; simp at hl; omega)]
          · rw [if_neg hp, if_neg hp, ih (pre ++ [c]) s (by simp at hl; omega)]

theorem replaceAllPosJs_inert (pat rep : List Char) (hrep : dollarInert rep = true)
    (pre l : List Char) :
    replaceAllPosJs pat rep pre l = replaceAllPos pat rep l :=
  replaceAllPosJsGo_inert pat rep hrep l.length pre l (le_refl _)

theorem replaceAll_ne_nil (pat rep s : List Char) (h : pat ≠ [])
    (hrep : dollarInert rep = true) :
    replaceAll pat rep s = replaceAllPos pat rep s := by
  have he : pat.isEmpty = false := by simp [List.isEmpty_iff, h]
  rw [replaceAll, he]
  simp only [Bool.false_eq_true, if_false]
  exact replaceAllPosJs_inert pat rep hrep [] s

theorem occursB_nil_pat (s : List Char) : occursB [] s = true := by
  cases s <;> simp [occursB]

theorem not_prefixOf_of_not_occurs {pat : List Char} {c : Char} {s : List Char}
    (h : occursB pat (c :: s) = false) :
    pat.isPrefixOf (c :: s) = false ∧ occursB pat s = false := by
  simpa [occursB] using h

theorem replaceAllPos_of_not_occurs (pat rep : List Char) (s : List Char)
    (h : occursB pat s = false) : replaceAllPos pat rep s = s := by
  induction s with
  | nil => exact replaceAllPos_nil pat rep
  | cons c s ih =>
      obtain ⟨h1, h2⟩ := not_prefixOf_of_not_occurs h
      rw [replaceAllPos, if_neg (by simp [h1]), ih h2]

theorem replaceAllPosJsGo_of_not_occurs (pat rep : List Char) :
    ∀ (fuel : Nat) (pre l : List Char), l.length ≤ fuel → occursB pat l = false →
      replaceAllPosJsGo pat rep fuel pre l = l := by
  intro fuel
  induction fuel with
  | zero =>
      intro pre l hl _
      have hnil : l = [] := List.eq_nil_of_length_eq_zero (Nat.le_zero.mp hl)
      subst hnil
      rw [replaceAllPosJsGo]
  | succ fuel ih =>
      intro pre l hl h
      match l with
      | [] => rw [replaceAllPosJsGo]
      | c :: s =>
          obtain ⟨h1, h2⟩ := not_prefixOf_of_not_occurs h
          rw [replaceAllPosJsGo, if_neg (by simp [h1]),
            ih (pre ++ [c]) s (by simp at hl; omega) h2]

theorem replaceAll_of_not_occurs (pat rep s : List Char)
    (h : occursB pat s = false) : replaceAll pat rep s = s := by
  have hne : pat ≠ [] := by
    intro hp
    rw [hp, occursB_nil_pat] at h
    exact Bool.noConfusion h
  have he : pat.isEmpty = false := by simp [List.isEmpty_iff, hne]
  rw [replaceAll, he]
  simp only [Bool.false_eq_true, if_false]
  exact replaceAllPosJsGo_of_not_occurs pat rep s.length [] s (le_refl _) h

theorem replaceAllPos_append_matched (pat rep b : List Char) (h : pat ≠ []) :
    replaceAllPos pat rep (pat ++ b) = rep ++ replaceAllPos pat rep b := by
  match pat, h with
  | p :: pt, _ =>
      have hpre : (p :: pt).isPrefixOf (p :: (pt ++ b)) = true :=
        List.isPrefixOf_iff_prefix.mpr ⟨b, by simp⟩
      rw [List.cons_append, replaceAllPos, if_pos hpre]
      congr 1
      have hlen : (p :: pt).length - 1 = pt.length := by simp
      rw [hlen, List.drop_left]

theorem not_prefix_drop_of_head_ne (pat l : List Char) (k : Nat) (c : Char)
    (hl : l[k]? = some c) (hp : pat.head? = some '[') (hc : c ≠ '[') :
    ¬ pat <+: l.drop k := by
  intro hpre
  match pat, hp with
  | p :: pt, hp =>
      have hp2 : p = '[' := by simpa using hp
      obtain ⟨r, hr⟩ := hpre
      have hh : (l.drop k).head? = some p := by rw [← hr]; rfl
      rw [List.head?_drop, hl] at hh
      injection hh with hcp
      exact hc (hcp.trans hp2)

theorem replaceAllPos_append_no_match (pat rep : List Char) (a b : List Char)
    (h : ∀ k, k < a.length → ¬ pat <+: (a ++ b).drop k) :
    replaceAllPos pat rep (a ++ b) = a ++ replaceAllPos pat rep b := by
  induction a with
  | nil => simp
  | cons c a ih =>
      have h0 : ¬ pat <+: (c :: (a ++ b)) := by
        have := h 0 (by simp)
        simpa using this
      have h2 : ∀ k, k < a.length → ¬ pat <+: (a ++ b).drop k := by
        intro k hk
        have := h (k + 1) (by simpa using Nat.succ_lt_succ hk)
        simpa using this
      rw [List.cons_append, replaceAllPos,
        if_neg (by simpa [List.isPrefixOf_iff_prefix] using h0), ih h2]
      rfl

theorem WfToken.ne_nil {t : List Char} (h : WfToken t) : t ≠ [] := by
  obtain ⟨b, rfl, -⟩ := h; simp

theorem WfToken.head_eq {t : List Char} (h : WfToken t) : t.head? = some '[' := by
  obtain ⟨b, rfl, -⟩ := h; rfl

theorem WfToken.not_bracketless {t : List Char} (h : WfToken t) : ¬ Bracketless t := by
  obtain ⟨b, rfl, -⟩ := h
  intro hb
  exact (hb '[' (by simp)).1 rfl

theorem WfToken.prefix_eq {p q : List Char} (hp : WfToken p) (hq : WfToken q)
    (hpre : p <+: q) : p = q := by
  obtain ⟨pb, rfl, hpb⟩ := hp
  obtain ⟨qb, rfl, hqb⟩ := hq
  obtain ⟨-, hpre⟩ := List.cons_prefix_cons.mp hpre
  have hlen : pb.length + 1 ≤ qb.length + 1 := by simpa using hpre.length_le
  rcases Nat.lt_or_ge pb.length qb.length with hlt | hge
  · exfalso
    have hpq : pb ++ [']'] <+: qb :=
      List.prefix_of_prefix_length_le hpre (List.prefix_append qb [']'])
        (by simp; omega)
    have hqmem : (']' : Char) ∈ qb := hpq.subset (by simp)
    exact (hqb ']' hqmem).2 rfl
  · have heq : pb.length = qb.length := by omega
    have hfull := hpre.eq_of_length (by simp [heq])
    have hb : pb = qb := by simpa using hfull
    rw [hb]

theorem WfToken.not_prefix_append {pat t X : List Char} (hpat : WfToken pat) (ht : WfToken t)
    (hne : pat ≠ t) : ¬ pat <+: (t ++ X) := by
  intro hpre
  rcases le_or_lt pat.length t.length with hle | hlt
  · exact hne (hpat.prefix_eq ht
      (List.prefix_of_prefix_length_le hpre (List.prefix_append t X) hle))
  · have h2 : t <+: pat :=
      List.prefix_of_prefix_length_le (List.prefix_append t X) hpre (Nat.le_of_lt hlt)
    exact hne (ht.prefix_eq hpat h2).symm

theorem WfToken.getElem_succ_ne {t : List Char} (h : WfToken t) (k : Nat) (c : Char)
    (hc : t[k + 1]? = some c) : c ≠ '[' := by
  obtain ⟨b, rfl, hb⟩ := h
  intro hcontra
  subst hcontra
  have hc2 : (b ++ [']'])[k]? = some '[' := by simpa using hc
  have hmem : ('[' : Char) ∈ b ++ [']'] := List.getElem?_mem hc2
  rw [List.mem_append] at hmem
  rcases hmem with h1 | h1
  · exact (hb '[' h1).1 rfl
  · simp at h1

theorem Bracketless.getElem_ne {s : List Char} (h : Bracketless s) (k : Nat) (c : Char)
    (hc : s[k]? = some c) : c ≠ '[' :=
  (h c (List.getElem?_mem hc)).1

theorem replaceAllPos_bracketless_append {pat : List Char} (rep : List Char) {s : List Char}
    (X : List Char) (hpat : WfToken pat) (hs : Bracketless s) :
    replaceAllPos pat rep (s ++ X) = s ++ replaceAllPos pat rep X := by
  apply replaceAllPos_append_no_match
  intro k hk
  obtain ⟨c, hc⟩ : ∃ c, s[k]? = some c := by
    rw [List.getElem?_eq_getElem hk]; exact ⟨_, rfl⟩
  have hck : (s ++ X)[k]? = some c := by
    rw [List.getElem?_append, if_pos hk]; exact hc
  exact not_prefix_drop_of_head_ne pat (s ++ X) k c hck hpat.head_eq (hs.getElem_ne k c hc)

theorem replaceAllPos_wfToken_append {pat u : List Char} (rep X : List Char)
    (hpat : WfToken pat) (hu : WfToken u) (hne : pat ≠ u) :
    replaceAllPos pat rep (u ++ X) = u ++ replaceAllPos pat rep X := by
  apply replaceAllPos_append_no_match
  intro k hk
  match k with
  | 0 => simpa using hpat.not_prefix_append hu hne
  | k + 1 =>
      obtain ⟨c, hc⟩ : ∃ c, u[k + 1]? = some c := by
        rw [List.getElem?_eq_getElem hk]; exact ⟨_, rfl⟩
      have hck : (u ++ X)[k + 1]? = some c := by
        rw [List.getElem?_append, if_pos hk]; exact hc
      exact not_prefix_drop_of_head_ne pat (u ++ X) (k + 1) c hck hpat.head_eq
        (hu.getElem_succ_ne k c hc)

theorem nodup_key_eq {m : List (String × String)} (hn : (m.map Prod.fst).Nodup)
    {t o o2 : String} (h1 : (t, o) ∈ m) (h2 : (t, o2) ∈ m) : o = o2 := by
  induction m with
  | nil => simp at h1
  | cons e m ih =>
      rw [List.map_cons, List.nodup_cons] at hn
      rcases List.mem_cons.mp h1 with he1 | he1 <;> rcases List.mem_cons.mp h2 with he2 | he2
      · have h3 := he1.trans he2.symm
        exact congrArg Prod.snd h3
      · obtain rfl : e = (t, o) := he1.symm
        exact absurd (List.mem_map.mpr ⟨(t, o2), he2, rfl⟩) hn.1
      · obtain rfl : e = (t, o2) := he2.symm
        exact absurd (List.mem_map.mpr ⟨(t, o), he1, rfl⟩) hn.1
      · exact ih hn.2 he1 he2

theorem tokAt_of_getElem {m : List (String × String)} {i : Nat} {e : String × String}
    (h : m[i]? = some e) : tokAt m i = e.1.data := by simp [tokAt, h]

theorem origAt_of_getElem {m : List (String × String)} {i : Nat} {e : String × String}
    (h : m[i]? = some e) : origAt m i = e.2.data := by simp [origAt, h]

theorem tokStr_of_getElem {m : List (String × String)} {i : Nat} {e : String × String}
    (h : m[i]? = some e) : tokStr m i = e.1 := by simp [tokStr, h]

theorem tokStr_mem (m : List (String × String)) (i : Nat) (hi : i < m.length) :
    tokStr m i ∈ m.map Prod.fst := by
  have hm : m[i]? = some m[i] := List.getElem?_eq_getElem hi
  rw [tokStr_of_getElem hm]
  exact List.mem_map.mpr ⟨m[i], List.getElem_mem hi, rfl⟩

theorem replaceAll_renderMix (m : List (String × String)) (t o : String)
    (done : List String) (hmem : (t, o) ∈ m) (_hnd : t ∉ done)
    (hwf : ∀ e ∈ m, WfToken e.1.data ∧ Bracketless e.2.data)
    (hkeys : (m.map Prod.fst).Nodup) (hinert : dollarInert o.data = true) :
    ∀ pieces : List Piece, (∀ p ∈ pieces, PieceOk m p) →
      replaceAll t.data o.data (renderMix m done pieces)
        = renderMix m (t :: done) pieces := by
  have hpat : WfToken t.data := (hwf (t, o) hmem).1
  have hpatne : t.data ≠ [] := hpat.ne_nil
  intro pieces
  induction pieces with
  | nil =>
      intro _
      rw [show renderMix m done [] = [] from rfl, show renderMix m (t :: done) [] = [] from rfl,
        replaceAll_ne_nil _ _ _ hpatne hinert, replaceAllPos_nil]
  | cons p ps ih =>
      intro hpc
      have hps : ∀ q ∈ ps, PieceOk m q := fun q hq => hpc q (List.mem_cons_of_mem _ hq)
      have hihp := ih hps
      rw [replaceAll_ne_nil _ _ _ hpatne hinert] at hihp ⊢
      match p with
      | Piece.seg s =>
          have hseg : Bracketless s := hpc (Piece.seg s) (List.mem_cons_self _ _)
          show replaceAllPos t.data o.data (s ++ renderMix m done ps)
            = s ++ renderMix m (t :: done) ps
          rw [replaceAllPos_bracketless_append _ _ hpat hseg, hihp]
      | Piece.tok i =>
          have hi : i < m.length := hpc (Piece.tok i) (List.mem_cons_self _ _)
          have hm : m[i]? = some m[i] := List.getElem?_eq_getElem hi
          have hem : m[i] ∈ m := List.getElem_mem hi
          show replaceAllPos t.data o.data
              ((if tokStr m i ∈ done then origAt m i else tokAt m i) ++ renderMix m done ps)
            = (if tokStr m i ∈ t :: done then origAt m i else tokAt m i)
              ++ renderMix m (t :: done) ps
          by_cases hdone : tokStr m i ∈ done
          · rw [if_pos hdone, if_pos (List.mem_cons_of_mem _ hdone)]
            have horig : Bracketless (origAt m i) := by
              rw [origAt_of_getElem hm]
              exact (hwf m[i] hem).2
            rw [replaceAllPos_bracketless_append _ _ hpat horig, hihp]
          · rw [if_neg hdone]
            by_cases heq : tokStr m i = t
            · have hfst : (m[i]).1 = t := by rw [← tokStr_of_getElem hm, heq]
              have htok : tokAt m i = t.data := by rw [tokAt_of_getElem hm, hfst]
              have hsnd : (m[i]).2 = o := by
                apply nodup_key_eq hkeys _ hmem
                rw [← hfst]
                exact hem
              have horig2 : origAt m i = o.data := by rw [origAt_of_getElem hm, hsnd]
              rw [if_pos (by rw [heq]; exact List.mem_cons_self _ _)]
              rw [htok, horig2, replaceAllPos_append_matched _ _ _ hpatne, hihp]
            · have hfstne : (m[i]).1 ≠ t := by
                rw [← tokStr_of_getElem hm]
                exact heq
              have hdatane : t.data ≠ tokAt m i := by
                rw [tokAt_of_getElem hm]
                intro hcon
                exact hfstne (String.ext hcon).symm
              have htokwf : WfToken (tokAt m i) := by
                rw [tokAt_of_getElem hm]
                exact (hwf m[i] hem).1
              rw [if_neg (by
                intro hcon
                rcases List.mem_cons.mp hcon with h1 | h1
                · exact heq h1
                · exact hdone h1)]
              rw [replaceAllPos_wfToken_append _ _ hpat htokwf hdatane, hihp]

theorem foldl_replace_renderMix (m : List (String × String)) (pieces : List Piece)
    (hwf : ∀ e ∈ m, WfToken e.1.data ∧ Bracketless e.2.data)
    (hkeys : (m.map Prod.fst).Nodup)
    (hinert : ∀ e ∈ m, dollarInert e.2.data = true)
    (hpc : ∀ p ∈ pieces, PieceOk m p) :
    ∀ (l : List (String × String)) (done : List String),
      (∀ e ∈ l, e ∈ m) → (l.map Prod.fst).Nodup → (∀ e ∈ l, e.1 ∉ done) →
      l.foldl (fun text e => replaceAll e.1.data e.2.data text) (renderMix m done pieces)
        = renderMix m ((l.map Prod.fst).reverse ++ done) pieces := by
  intro l
  induction l with
  | nil => intro done _ _ _; simp
  | cons e l ih =>
      intro done hsub hnd hdone
      rw [List.map_cons, List.nodup_cons] at hnd
      have hstep := replaceAll_renderMix m e.1 e.2 done
        (hsub e (List.mem_cons_self e l)) (hdone e (List.mem_cons_self e l)) hwf hkeys
        (hinert e (hsub e (List.mem_cons_self e l)))
        pieces hpc
      rw [List.foldl_cons, hstep]
      rw [ih (e.1 :: done) (fun x hx => hsub x (List.mem_cons_of_mem _ hx)) hnd.2
        (fun x hx => by
          intro hcon
          rcases List.mem_cons.mp hcon with h1 | h1
          · exact hnd.1 (h1 ▸ List.mem_map.mpr ⟨x, hx, rfl⟩)
          · exact hdone x (List.mem_cons_of_mem _ hx) h1)]
      congr 1
      rw [List.map_cons, List.reverse_cons, List.append_assoc]
      rfl

theorem renderMix_nil_done (m : List (String × String)) (pieces : List Piece) :
    renderMix m [] pieces = renderTok m pieces := by
  induction pieces with
  | nil => rfl
  | cons p ps ih =>
      match p with
      | Piece.seg s => simp [renderMix, renderTok, ih]
      | Piece.tok i => simp [renderMix, renderTok, ih]

theorem renderMix_all_done (m : List (String × String)) (done : List String)
    (pieces : List Piece) (hpc : ∀ p ∈ pieces, PieceOk m p)
    (hall : ∀ i, i < m.length → tokStr m i ∈ done) :
    renderMix m done pieces = renderOrig m pieces := by
  induction pieces with
  | nil => rfl
  | cons p ps ih =>
      have hps : ∀ q ∈ ps, PieceOk m q := fun q hq => hpc q (List.mem_cons_of_mem _ hq)
      match p with
      | Piece.seg s => simp [renderMix, renderOrig, ih hps]
      | Piece.tok i =>
          have hi : i < m.length := hpc (Piece.tok i) (List.mem_cons_self _ _)
          simp [renderMix, renderOrig, ih hps, hall i hi]

theorem revertLoop_fst (map : List (String × String)) :
    ∀ acc : String × List (String × String),
      ((map.foldl revertStep acc).1).data
        = map.foldl (fun text e => replaceAll e.1.data e.2.data text) acc.1.data := by
  induction map with
  | nil => intro acc; rfl
  | cons e map ih =>
      intro acc
      rw [List.foldl_cons, List.foldl_cons, ih]
      congr 1
      unfold revertStep
      by_cases h : includesStr e.1 acc.1
      · simp only [h, if_true, replaceAllStr]
      · simp only [h, Bool.false_eq_true, if_false]
        have hocc : occursB e.1.data acc.1.data = false := by
          simpa [includesStr] using h
        rw [replaceAll_of_not_occurs _ _ _ hocc]

theorem revertText_data (map : List (String × String)) (t : String) :
    (revertText map t).data
      = map.foldl (fun text e => replaceAll e.1.data e.2.data text) t.data := by
  unfold revertText revertLoop
  exact revertLoop_fst map (t, [])

theorem revertMain_flipped (dn t : String) (properNounMap : List (String × String))
    (ht : t ≠ "") :
    (revertMainSynthesizedHeadline dn (some t) properNounMap).flipped_headline
      = revertText properNounMap t := by
  simp [revertMainSynthesizedHeadline, ht, revertText]

theorem revertText_renders (m l : List (String × String)) (t : String) (pieces : List Piece)
    (hdec : DecompOk m pieces) (hinert : ∀ e ∈ m, dollarInert e.2.data = true)
    (hsub : ∀ e ∈ l, e ∈ m) (hnd : (l.map Prod.fst).Nodup)
    (hall : ∀ i, i < m.length → tokStr m i ∈ l.map Prod.fst)
    (ht : t.data = renderTok m pieces) :
    revertText l t = String.mk (renderOrig m pieces) := by
  apply String.ext
  rw [revertText_data]
  have h0 : t.data = renderMix m [] pieces := by rw [ht, renderMix_nil_done]
  rw [h0]
  rw [foldl_replace_renderMix m pieces hdec.2.1 hdec.2.2 hinert hdec.1 l [] hsub hnd (by simp)]
  rw [renderMix_all_done m _ pieces hdec.1
    (fun i hi => by simp [List.mem_reverse, hall i hi])]

/-- CLAIM C6 counterexample: reversion is NOT order independent for
every map satisfying the decomposition invariant.  The source escapes
only the regex pattern and passes the original as a raw replacement
string, so a dollar-substitution pattern in it is expanded: here the
maps are permutations of each other, the tokens are unique well-formed
bracketed markers, the text decomposes into token references with
bracket-free originals — every hypothesis of the order-independence
law holds — yet the two enumeration orders give different final texts.
Both originals are the after-match pattern (dollar and quote): with X
reverted first its substitution re-inserts the still-unreverted token
Y, and the copy inserted by the Y pass's own first match survives
unscanned, leaving the text with one Y token; with Y reverted first
everything collapses to the empty string. -/
theorem revert_order_dependent_on_dollar :
    ([("[X]", String.mk ['$', Char.ofNat 39]), ("[Y]", String.mk ['$', Char.ofNat 39])]
        : List (String × String)).Perm
        [("[Y]", String.mk ['$', Char.ofNat 39]), ("[X]", String.mk ['$', Char.ofNat 39])]
    ∧ DecompOk
        [("[X]", String.mk ['$', Char.ofNat 39]), ("[Y]", String.mk ['$', Char.ofNat 39])]
        [Piece.tok 0, Piece.tok 1]
    ∧ ("[X][Y]" : String).data
        = renderTok
            [("[X]", String.mk ['$', Char.ofNat 39]), ("[Y]", String.mk ['$', Char.ofNat 39])]
            [Piece.tok 0, Piece.tok 1]
    ∧ (revertMainSynthesizedHeadline "reverter" (some "[X][Y]")
          [("[X]", String.mk ['$', Char.ofNat 39]),
           ("[Y]", String.mk ['$', Char.ofNat 39])]).flipped_headline
        = "[Y]"
    ∧ (revertMainSynthesizedHeadline "reverter" (some "[X][Y]")
          [("[Y]", String.mk ['$', Char.ofNat 39]),
           ("[X]", String.mk ['$', Char.ofNat 39])]).flipped_headline
        = "" := by
  exact ⟨by decide, by decide, by decide, by decide, by decide⟩

/-- CLAIM C6 (amended): for every text and every placeholder map whose
tokens are unique, well-formed bracketed markers that do not overlap or
nest within the text (formalized: the text has a decomposition into
bracket-free segments and token references, with bracket-free
originals), and whose originals hold no active dollar-substitution
pattern, the final text produced by the reversion node is the same for
every enumeration order of the map's entries. -/
theorem revert_order_independent (dn : String) (textOpt : Option String)
    (m1 m2 : List (String × String)) (pieces : List Piece)
    (hperm : m1.Perm m2) (hdec : DecompOk m1 pieces)
    (hinert : ∀ e ∈ m1, dollarInert e.2.data = true)
    (htext : ∀ t, textOpt = some t → t.data = renderTok m1 pieces) :
    (revertMainSynthesizedHeadline dn textOpt m1).flipped_headline
      = (revertMainSynthesizedHeadline dn textOpt m2).flipped_headline := by
  match textOpt with
  | none => rfl
  | some t =>
      by_cases ht : t = ""
      · subst ht; rfl
      · rw [revertMain_flipped dn t m1 ht, revertMain_flipped dn t m2 ht]
        rw [revertText_renders m1 m1 t pieces hdec hinert (fun e he => he) hdec.2.2
          (fun i hi => tokStr_mem m1 i hi) (htext t rfl)]
        rw [revertText_renders m1 m2 t pieces hdec hinert (fun e he => hperm.mem_iff.mpr he)
          ((hperm.map Prod.fst).nodup_iff.mp hdec.2.2)
          (fun i hi => (hperm.map Prod.fst).mem_iff.mp (tokStr_mem m1 i hi)) (htext t rfl)]

/-- Witness for `revert_order_independent` at a concrete text, map and
reversed map. -/
theorem revert_order_independent_witness :
    (revertMainSynthesizedHeadline "reverter" (some "a [X] b [Y]")
        [("[X]", "Ax"), ("[Y]", "By")]).flipped_headline
      = (revertMainSynthesizedHeadline "reverter" (some "a [X] b [Y]")
        [("[Y]", "By"), ("[X]", "Ax")]).flipped_headline :=
  revert_order_independent "reverter" (some "a [X] b [Y]")
    [("[X]", "Ax"), ("[Y]", "By")] [("[Y]", "By"), ("[X]", "Ax")]
    [Piece.seg "a ".data, Piece.tok 0, Piece.seg " b ".data, Piece.tok 1]
    (by decide) (by decide) (by decide)
    (by intro t ht; injection ht with h2; rw [← h2]; rfl)

/-- CLAIM C1 counterexample: the round-trip law as stated fails.  The
anonymization call can succeed by the node's own test (a nonempty
placeholder text and a present map) while returning a placeholder text
unrelated to the input; reversion then cannot restore the original.
Here the service replies with text X and an empty map for input hello,
the node accepts it, and the reverted text is X, not hello. -/
theorem anonymize_revert_not_roundtrip :
    (revertMainSynthesizedHeadline "main_reverter"
        (some (properNounReplacer1Node "hello"
            { error := none, text_with_placeholders := some "X",
              properNoun_map := some [] }).headline_with_placeholders)
        (properNounReplacer1Node "hello"
            { error := none, text_with_placeholders := some "X",
              properNoun_map := some [] }).properNoun_map).flipped_headline
      ≠ "hello" := by
  decide

/-- CLAIM C1 (amended): when the anonymization call succeeds by the
node's shape test and the reply is a faithful anonymization — the input
decomposes into bracket-free segments and the map's originals, the
placeholder text is the same decomposition with each original replaced
by its unique bracketed token, and no original holds an active
dollar-substitution pattern (which the raw replacement string of the
source's replace call would expand) — then reverting the published
placeholder text with the published map restores text equal to the
original input. -/
theorem anonymize_revert_roundtrip (dn input : String) (r : ReplacerReply)
    (pieces : List Piece)
    (hok : replyOk r = true)
    (hdec : DecompOk (r.properNoun_map.getD []) pieces)
    (hinert : ∀ e ∈ r.properNoun_map.getD [], dollarInert e.2.data = true)
    (htwp : (r.text_with_placeholders.getD "").data
              = renderTok (r.properNoun_map.getD []) pieces)
    (horig : input.data = renderOrig (r.properNoun_map.getD []) pieces) :
    (revertMainSynthesizedHeadline dn
        (some (properNounReplacer1Node input r).headline_with_placeholders)
        (properNounReplacer1Node input r).properNoun_map).flipped_headline = input := by
  have hnode1 : (properNounReplacer1Node input r).headline_with_placeholders
      = r.text_with_placeholders.getD "" := by
    simp [properNounReplacer1Node, hok]
  have hnode2 : (properNounReplacer1Node input r).properNoun_map
      = r.properNoun_map.getD [] := by
    simp [properNounReplacer1Node, hok]
  have htne : r.text_with_placeholders.getD "" ≠ "" := by
    unfold replyOk at hok
    match htw : r.text_with_placeholders with
    | none => rw [htw] at hok; simp at hok
    | some s =>
        rw [htw] at hok
        simp only [Bool.and_eq_true, bne_iff_ne] at hok
        simpa using hok.1.2
  rw [hnode1, hnode2, revertMain_flipped dn _ _ htne]
  rw [revertText_renders (r.properNoun_map.getD []) (r.properNoun_map.getD [])
    _ pieces hdec hinert (fun e he => he) hdec.2.2
    (fun i hi => tokStr_mem _ i hi) htwp]
  exact (String.ext horig).symm

/-- Witness for `anonymize_revert_roundtrip` at a concrete faithful
reply. -/
theorem anonymize_revert_roundtrip_witness :
    (revertMainSynthesizedHeadline "main_reverter"
        (some (properNounReplacer1Node "Alice met Bob"
            { error := none, text_with_placeholders := some "[P_A] met [P_B]",
              properNoun_map := some [("[P_A]", "Alice"), ("[P_B]", "Bob")] }
          ).headline_with_placeholders)
        (properNounReplacer1Node "Alice met Bob"
            { error := none, text_with_placeholders := some "[P_A] met [P_B]",
              properNoun_map := some [("[P_A]", "Alice"), ("[P_B]", "Bob")] }
          ).properNoun_map).flipped_headline = "Alice met Bob" :=
  anonymize_revert_roundtrip "main_reverter" "Alice met Bob"
    { error := none, text_with_placeholders := some "[P_A] met [P_B]",
      properNoun_map := some [("[P_A]", "Alice"), ("[P_B]", "Bob")] }
    [Piece.tok 0, Piece.seg " met ".data, Piece.tok 1]
    (by decide) (by decide) (by decide) (by decide) (by decide)

/-- CLAIM C4: anonymization is best-effort — whenever the generation
call fails or returns a malformed result (an error marker, a missing or
empty placeholder text, or a missing token map), the node publishes the
original headline unchanged together with an empty placeholder map, and
returns an ordinary update (it is a total function, so the run
continues). -/
theorem anonymization_best_effort (input : String) (r : ReplacerReply)
    (hfail : replyOk r = false) :
    (properNounReplacer1Node input r).headline_with_placeholders = input
    ∧ (properNounReplacer1Node input r).properNoun_map = [] := by
  simp [properNounReplacer1Node, hfail]

/-- Witness for `anonymization_best_effort` with a failing generation
call. -/
theorem anonymization_best_effort_witness :
    (properNounReplacer1Node "Dog attacks 4-year-old causing injuries"
        { error := some "Model API error: 500. Details: boom",
          text_with_placeholders := none, properNoun_map := none }
      ).headline_with_placeholders = "Dog attacks 4-year-old causing injuries"
    ∧ (properNounReplacer1Node "Dog attacks 4-year-old causing injuries"
        { error := some "Model API error: 500. Details: boom",
          text_with_placeholders := none, properNoun_map := none }
      ).properNoun_map = [] :=
  anonymization_best_effort "Dog attacks 4-year-old causing injuries"
    { error := some "Model API error: 500. Details: boom",
      text_with_placeholders := none, properNoun_map := none }
    (by decide)

/-- CLAIM C3 counterexample: the claim describes parsing as taking the
substring from the first opening brace to the last closing brace of the
fence-stripped text (failing into a FailureResult otherwise), but the
code additionally falls back to parsing the whole cleaned text: on the
reply text true, the described algorithm finds no braces and fails,
while the code returns a parsed boolean value. -/
theorem extract_parse_diverges_from_spec :
    extractAndParseJson "true" ≠ extractAndParseJsonSpec "true" := by
  intro h
  have h2 := congrArg Option.isSome h
  rw [show (extractAndParseJson "true").isSome = true from rfl] at h2
  rw [show (extractAndParseJsonSpec "true").isSome = false from rfl] at h2
  exact Bool.noConfusion h2

/-- CLAIM C3 (amended): each of the three failure classes — transport
throw, non-success response status, and a successful response whose
content does not parse — normalizes to a returned failure value of the
shape error-string plus raw content (the response body for a status
failure, the raw reply text for the unparseable case), and the call
returns a value in every case rather than throwing.  Parsing strips
fences and parses the first-to-last-brace substring, amended with the
code's extra fallback: when that substring parse fails or no brace pair
exists, the whole cleaned text is parsed before failing — so every
reply the spec's algorithm accepts is accepted identically by the
code. -/
theorem callModel_failure_normalization (msg body content : String) (status : Nat)
    (j : JsValue)
    (hbody : jsonParse body = some j)
    (hraw : geminiRawContent j = some (JsValue.str content))
    (hfr : finishBlocked (geminiFinishReason j) = false)
    (hne : strTrim content ≠ "")
    (hparse : extractAndParseJson content = none) :
    callModel true (FetchOutcome.netThrow msg)
        = CallResult.failure ("Network or unexpected error in callModel: " ++ msg)
            (JsValue.str "") none
    ∧ callModel true (FetchOutcome.response false status body)
        = CallResult.failure ("Model API error: " ++ toString status ++ ". Details: "
            ++ statusErrorDetail body) (JsValue.str body) none
    ∧ callModel true (FetchOutcome.response true status body)
        = CallResult.failure "Failed to parse JSON response from model"
            (JsValue.str content) none
    ∧ (∀ text v, extractAndParseJsonSpec text = some v → extractAndParseJson text = some v) := by
  refine ⟨rfl, rfl, ?_, ?_⟩
  · unfold callModel
    simp only [Bool.not_true, Bool.false_eq_true, if_false, hbody, hfr, hraw,
      if_neg hne, hparse]
  · intro text v h
    by_cases ht : text = ""
    · rw [extractAndParseJsonSpec, if_pos ht] at h
      exact absurd h (by simp)
    · rw [extractAndParseJsonSpec, if_neg ht] at h
      rw [extractAndParseJson, if_neg ht]
      cases hbs : braceSubstring (cleanFences text).data with
      | none =>
          rw [hbs] at h
          simp [collapseNull] at h
      | some sub =>
          rw [hbs] at h
          simp only [Option.elim] at h ⊢
          cases hp : jsonParse (String.mk sub) with
          | none =>
              rw [hp] at h
              simp [collapseNull] at h
          | some w =>
              rw [hp] at h
              simpa [Option.orElse] using h

/-- A concrete Gemini response envelope whose reply text is not JSON. -/
def geminiBodyExample : JsValue :=
  JsValue.mkObj [("candidates", JsValue.mkArr [JsValue.mkObj
    [("content", JsValue.mkObj [("parts", JsValue.mkArr [JsValue.mkObj
      [("text", JsValue.str "not json")]])])]])]

/-- Witness for `callModel_failure_normalization` at a concrete body and
a concrete transport failure. -/
theorem callModel_failure_normalization_witness :
    callModel true (FetchOutcome.response true 200
        (String.mk (jsonStringify geminiBodyExample)))
      = CallResult.failure "Failed to parse JSON response from model"
          (JsValue.str "not json") none
    ∧ callModel true (FetchOutcome.netThrow "socket hang up")
      = CallResult.failure ("Network or unexpected error in callModel: " ++ "socket hang up")
          (JsValue.str "") none := by
  have h := callModel_failure_normalization "socket hang up"
    (String.mk (jsonStringify geminiBodyExample)) "not json" 200 geminiBodyExample
    (by rfl) (by rfl) (by rfl) (by decide) (by rfl)
  exact ⟨h.2.2.1, h.1⟩

theorem stateGet_jsSet_self (st : List (String × JsValue)) (k : String) (v : JsValue) :
    stateGet (jsSet st k v) k = some v := by
  induction st with
  | nil => simp [jsSet, stateGet]
  | cons e st ih =>
      by_cases he : e.1 = k
      · simp [jsSet, he, stateGet]
      · simp [jsSet, he, stateGet, ih]

theorem stateGet_jsSet_other (st : List (String × JsValue)) (k k2 : String) (v : JsValue)
    (h : k2 ≠ k) : stateGet (jsSet st k v) k2 = stateGet st k2 := by
  have hk : ¬ k = k2 := fun hh => h hh.symm
  induction st with
  | nil => simp [jsSet, stateGet, hk]
  | cons e st ih =>
      by_cases he : e.1 = k
      · have he2 : ¬ e.1 = k2 := by rw [he]; exact hk
        simp [jsSet, he, stateGet, hk, he2]
      · simp [jsSet, he, stateGet, ih]

theorem stateGet_foldl_jsSet_of_notin {α : Type} (g : α → String × JsValue) (l : List α)
    (acc : List (String × JsValue)) (k : String) (h : ∀ a ∈ l, (g a).1 ≠ k) :
    stateGet (l.foldl (fun s a => jsSet s (g a).1 (g a).2) acc) k = stateGet acc k := by
  induction l generalizing acc with
  | nil => rfl
  | cons a l ih =>
      rw [List.foldl_cons, ih _ (fun x hx => h x (List.mem_cons_of_mem _ hx))]
      exact stateGet_jsSet_other _ _ _ _
        (fun hh => h a (List.mem_cons_self _ _) hh.symm)

theorem stateGet_foldl_jsSet_of_mem {α : Type} (g : α → String × JsValue) (l : List α)
    (acc : List (String × JsValue)) (a : α) (ha : a ∈ l)
    (hnd : (l.map (fun x => (g x).1)).Nodup) :
    stateGet (l.foldl (fun s x => jsSet s (g x).1 (g x).2) acc) (g a).1 = some (g a).2 := by
  induction l generalizing acc with
  | nil => simp at ha
  | cons b l ih =>
      rw [List.map_cons, List.nodup_cons] at hnd
      rw [List.foldl_cons]
      rcases List.mem_cons.mp ha with rfl | ha2
      · rw [stateGet_foldl_jsSet_of_notin g l _ _
          (fun x hx hh => hnd.1 (by rw [← hh]; exact List.mem_map.mpr ⟨x, hx, rfl⟩))]
        exact stateGet_jsSet_self _ _ _
      · exact ih _ ha2 hnd.2

/-- CLAIM C2: with every analyzer task configured (prompt config
present), distinct output keys, and a nonempty headline to analyze, the
parallel-group coordinator issues one generation call per task and its
update binds every task's output state field to exactly that task's own
call outcome — a structured result or a FailureResult object, never
undefined — so one task's failure cannot disturb any other task's
field.  The all-complete join of `Promise.allSettled` is modeled by the
coordinator being a total function of all N outcomes. -/
theorem parallel_group_isolation (cfg : CoordConfig) (st : List (String × JsValue))
    (oracle : Nat → JsValue)
    (hhl : truthy (resolveHeadlineToAnalyze cfg st) = true)
    (hcfg : ∀ task ∈ cfg.analyzerTasks, task.hasPromptConfig = true)
    (hkeys : (cfg.analyzerTasks.map AnalyzerTaskM.stateOutputKey).Nodup)
    (hres : ∀ task ∈ cfg.analyzerTasks, task.stateOutputKey ≠ "error_messages") :
    ∀ i, (hi : i < cfg.analyzerTasks.length) →
      stateGet (parallel_llm_group_coordinator cfg st oracle)
          cfg.analyzerTasks[i].stateOutputKey = some (oracle i) := by
  intro i hi
  have hne : cfg.analyzerTasks.isEmpty = false := by
    cases htl : cfg.analyzerTasks with
    | nil => rw [htl] at hi; simp at hi
    | cons a l => rfl
  unfold parallel_llm_group_coordinator
  simp only [hhl, Bool.not_true, Bool.false_and, Bool.false_eq_true, if_false, hne]
  rw [stateGet_jsSet_other _ _ _ _ (hres _ (List.getElem_mem hi))]
  have hgoal := stateGet_foldl_jsSet_of_mem
    (fun ita : Nat × AnalyzerTaskM => (ita.2.stateOutputKey, taskResult oracle ita.1 ita.2))
    cfg.analyzerTasks.enum
    [("error_messages", JsValue.mkArr []),
     ("headlineToAnalyze", resolveHeadlineToAnalyze cfg st)]
    (i, cfg.analyzerTasks[i])
    (by
      have h1 : cfg.analyzerTasks[i]? = some cfg.analyzerTasks[i] :=
        List.getElem?_eq_getElem hi
      have h2 : cfg.analyzerTasks.enum[i]? = some (i, cfg.analyzerTasks[i]) := by
        rw [List.getElem?_enum, h1]
        rfl
      exact List.getElem?_mem h2)
    (by
      have hm : cfg.analyzerTasks.enum.map
          (fun ita : Nat × AnalyzerTaskM => ita.2.stateOutputKey)
          = cfg.analyzerTasks.map AnalyzerTaskM.stateOutputKey := by
        have h2 : cfg.analyzerTasks.enum.map
            (fun ita : Nat × AnalyzerTaskM => ita.2.stateOutputKey)
            = (cfg.analyzerTasks.enum.map Prod.snd).map AnalyzerTaskM.stateOutputKey := by
          rw [List.map_map]
          rfl
        rw [h2, List.enum_map_snd]
      rw [hm]
      exact hkeys)
  simp only at hgoal
  rw [hgoal]
  have hpc := hcfg cfg.analyzerTasks[i] (List.getElem_mem hi)
  simp [taskResult, hpc]

/-- Witness for the coordinator isolation theorem: three configured
tasks, the second one's generation call failing; each output field
carries exactly its own task's outcome. -/
theorem parallel_group_isolation_witness :
    stateGet (parallel_llm_group_coordinator coordCfgExample coordStExample coordOracleExample)
        "cognitive_frames_analysis_result" = some (coordOracleExample 0)
    ∧ stateGet (parallel_llm_group_coordinator coordCfgExample coordStExample coordOracleExample)
        "speculative_reframing_result" = some (coordOracleExample 1)
    ∧ stateGet (parallel_llm_group_coordinator coordCfgExample coordStExample coordOracleExample)
        "euphemism_analysis_result" = some (coordOracleExample 2) :=
  ⟨parallel_group_isolation coordCfgExample coordStExample coordOracleExample
      (by decide) (by decide) (by decide) (by decide) 0 (by decide),
   parallel_group_isolation coordCfgExample coordStExample coordOracleExample
      (by decide) (by decide) (by decide) (by decide) 1 (by decide),
   parallel_group_isolation coordCfgExample coordStExample coordOracleExample
      (by decide) (by decide) (by decide) (by decide) 2 (by decide)⟩

theorem stateGet_foldl_saveMapStep_of_notin (data : List (String × JsValue))
    (l : List (String × String)) (acc : List (String × JsValue)) (k : String)
    (h : ∀ me ∈ l, me.2 ≠ k) :
    stateGet (l.foldl (saveMapStep data) acc) k = stateGet acc k := by
  induction l generalizing acc with
  | nil => rfl
  | cons b l ih =>
      rw [List.foldl_cons, ih _ (fun x hx => h x (List.mem_cons_of_mem _ hx))]
      unfold saveMapStep
      cases stateGet data b.1 with
      | none => rfl
      | some v =>
          by_cases hs : isSkippedValue v
          · simp [hs]
          · simp [hs,
              stateGet_jsSet_other _ _ _ _ (fun hh => h b (List.mem_cons_self _ _) hh.symm)]

theorem stateGet_saveMapStep_other (data : List (String × JsValue))
    (acc : List (String × JsValue)) (b : String × String) (k : String) (hk : b.2 ≠ k) :
    stateGet (saveMapStep data acc b) k = stateGet acc k := by
  unfold saveMapStep
  cases stateGet data b.1 with
  | none => rfl
  | some v =>
      by_cases hs : isSkippedValue v
      · simp [hs]
      · simp [hs, stateGet_jsSet_other _ _ _ _ (fun hh => hk hh.symm)]

theorem stateGet_foldl_saveMapStep_of_mem (data : List (String × JsValue))
    (l : List (String × String)) (acc : List (String × JsValue)) (me : String × String)
    (hme : me ∈ l) (hnd : (l.map Prod.snd).Nodup) :
    stateGet (l.foldl (saveMapStep data) acc) me.2
      = match stateGet data me.1 with
        | some v => if isSkippedValue v then stateGet acc me.2 else some v
        | none => stateGet acc me.2 := by
  induction l generalizing acc with
  | nil => simp at hme
  | cons b l ih =>
      rw [List.map_cons, List.nodup_cons] at hnd
      rw [List.foldl_cons]
      rcases List.mem_cons.mp hme with rfl | hme2
      · rw [stateGet_foldl_saveMapStep_of_notin data l _ _
          (fun x hx hh => hnd.1 (by rw [← hh]; exact List.mem_map.mpr ⟨x, hx, rfl⟩))]
        unfold saveMapStep
        cases stateGet data me.1 with
        | none => rfl
        | some v =>
            by_cases hs : isSkippedValue v
            · simp [hs]
            · simp [hs, stateGet_jsSet_self]
      · have hb2 : b.2 ≠ me.2 :=
          fun hh => hnd.1 (by rw [hh]; exact List.mem_map.mpr ⟨me, hme2, rfl⟩)
        rw [ih _ hme2 hnd.2, stateGet_saveMapStep_other data acc b me.2 hb2]

theorem stateGet_rawAnalysisStep_other (data item : List (String × JsValue)) (k : String)
    (hk : k ≠ "raw_analysis_data") :
    stateGet (rawAnalysisStep data item) k = stateGet item k := by
  unfold rawAnalysisStep
  cases stateGet data "raw_analysis_results" with
  | none => rfl
  | some v =>
      cases v with
      | obj fs => exact stateGet_jsSet_other _ _ _ _ hk
      | arr es => exact stateGet_jsSet_other _ _ _ _ hk
      | null => rfl
      | bool b => rfl
      | num n => rfl
      | str s => rfl

/-- CLAIM C7: a throwing store client is captured by the persistence
step as a `{ success: false, message }` status object — the model is a
total function, nothing escapes — which the saver node places under its
output state key; with every earlier step successful, the handler
response still carries HTTP status 200 and only the overall message
flips to the database warning, leaving the analysis portion of the
response intact. -/
theorem persistence_failure_isolated (pkg : List (String × JsValue)) (uuid ts m : String)
    (outKey : Option String) (fs : FinalStateView)
    (hih : stateTruthy pkg "input_headline" = true)
    (hihs : stateGet pkg "input_headline_for_saver" = none)
    (hfs1 : optErr fs.properNoun_replacement1_result = false)
    (hfs2 : optErr fs.analysis1_result = false)
    (hfs3 : optErr fs.synthesis_result = false)
    (hfs4 : synthFallbackMarker fs.flipped_headline_with_placeholders = false)
    (hfs5 : reverterSkippedMarker fs.properNoun_replacement2_status = false)
    (hdb : fs.db_save_status
        = some (saveAllToDynamoDBNode outKey (some pkg) uuid ts (PutOutcome.errThrow m)).2) :
    (saveAllToDynamoDBNode outKey (some pkg) uuid ts (PutOutcome.errThrow m)).2.success = false
    ∧ (saveAllToDynamoDBNode outKey (some pkg) uuid ts (PutOutcome.errThrow m)).2.message
        = some ("Database error: " ++ m)
    ∧ (saveAllToDynamoDBNode outKey (some pkg) uuid ts (PutOutcome.errThrow m)).1
        = jsOrElse outKey "db_save_status"
    ∧ overallStatusMessage fs = "Processing completed, but failed to save results to database."
    ∧ handlerHttpStatusCode fs = 200 := by
  have hstate : stateTruthy pkg "input_headline_for_saver" = false := by
    unfold stateTruthy
    rw [hihs]
  have hnode : saveAllToDynamoDBNode outKey (some pkg) uuid ts (PutOutcome.errThrow m)
      = (jsOrElse outKey "db_save_status",
         { success := false, message := some ("Database error: " ++ m),
           headline_id := none, saved_item_keys := none }) := by
    unfold saveAllToDynamoDBNode
    simp only [hih, hstate, hihs, Bool.not_true, Bool.not_false, Bool.true_and,
      Bool.and_false, Bool.false_eq_true, if_false]
    unfold saveHeadlineData
    simp only [hih, Bool.not_true, Bool.false_eq_true, if_false]
  refine ⟨by rw [hnode], by rw [hnode], by rw [hnode], ?_, rfl⟩
  unfold overallStatusMessage
  rw [hfs1, hfs2, hfs3, hfs4, hfs5, hdb, hnode]
  simp [dbSaveFailed]

/-- Witness for `persistence_failure_isolated` at a concrete package,
store error and final state. -/
theorem persistence_failure_isolated_witness :
    (saveAllToDynamoDBNode (some "db_save_status")
        (some [("input_headline", JsValue.str "Dog attacks 4-year-old causing injuries"),
               ("main_flipped_headline_from_state", JsValue.str "Dog involved in incident")])
        "id-1" "2024-01-01T00:00:00.000Z"
        (PutOutcome.errThrow "ProvisionedThroughputExceededException")).2.success = false
    ∧ overallStatusMessage
        { properNoun_replacement1_result := none, analysis1_result := none,
          analysis2_result := none, analysis3_result := none, synthesis_result := none,
          flipped_headline_with_placeholders := some "Dog involved in incident",
          properNoun_replacement2_status := some "Completed",
          db_save_status := some (saveAllToDynamoDBNode (some "db_save_status")
            (some [("input_headline", JsValue.str "Dog attacks 4-year-old causing injuries"),
                   ("main_flipped_headline_from_state",
                     JsValue.str "Dog involved in incident")])
            "id-1" "2024-01-01T00:00:00.000Z"
            (PutOutcome.errThrow "ProvisionedThroughputExceededException")).2 }
        = "Processing completed, but failed to save results to database." := by
  have h := persistence_failure_isolated
    [("input_headline", JsValue.str "Dog attacks 4-year-old causing injuries"),
     ("main_flipped_headline_from_state", JsValue.str "Dog involved in incident")]
    "id-1" "2024-01-01T00:00:00.000Z" "ProvisionedThroughputExceededException"
    (some "db_save_status")
    { properNoun_replacement1_result := none, analysis1_result := none,
      analysis2_result := none, analysis3_result := none, synthesis_result := none,
      flipped_headline_with_placeholders := some "Dog involved in incident",
      properNoun_replacement2_status := some "Completed",
      db_save_status := some (saveAllToDynamoDBNode (some "db_save_status")
        (some [("input_headline", JsValue.str "Dog attacks 4-year-old causing injuries"),
               ("main_flipped_headline_from_state", JsValue.str "Dog involved in incident")])
        "id-1" "2024-01-01T00:00:00.000Z"
        (PutOutcome.errThrow "ProvisionedThroughputExceededException")).2 }
    (by decide) (by decide) rfl rfl rfl (by decide) (by decide) rfl
  exact ⟨h.1, h.2.2.2.1⟩

/-- CLAIM C10: for every package with a truthy `input_headline`, the
item handed to the store always carries the fresh `headline_id`, the
`input_headline` and the `created_at` timestamp; every optional mapped
attribute is omitted when its package value is absent, null, or an
empty or whitespace-only string, and written verbatim otherwise; and
for a falsy `input_headline` nothing is handed to the store and a
`success: false` status is returned. -/
theorem saveHeadlineData_item_invariant (data : List (String × JsValue)) (uuid ts : String)
    (hih : stateTruthy data "input_headline" = true) :
    (saveHeadlineData data uuid ts PutOutcome.ok).2 = some (buildItemToSave data uuid ts)
    ∧ (saveHeadlineData data uuid ts PutOutcome.ok).1.success = true
    ∧ stateGet (buildItemToSave data uuid ts) "headline_id" = some (JsValue.str uuid)
    ∧ stateGet (buildItemToSave data uuid ts) "input_headline" = stateGet data "input_headline"
    ∧ stateGet (buildItemToSave data uuid ts) "created_at" = some (JsValue.str ts)
    ∧ (∀ me ∈ dbAttributeMapping, me.1 ≠ "input_headline" →
        (stateGet data me.1 = none → stateGet (buildItemToSave data uuid ts) me.2 = none)
        ∧ (∀ v, stateGet data me.1 = some v → isSkippedValue v = true →
            stateGet (buildItemToSave data uuid ts) me.2 = none)
        ∧ (∀ v, stateGet data me.1 = some v → isSkippedValue v = false →
            stateGet (buildItemToSave data uuid ts) me.2 = some v))
    ∧ (∀ data2 : List (String × JsValue), stateTruthy data2 "input_headline" = false →
        (saveHeadlineData data2 uuid ts PutOutcome.ok).2 = none
        ∧ (saveHeadlineData data2 uuid ts PutOutcome.ok).1.success = false) := by
  obtain ⟨ihv, hihv⟩ : ∃ v, stateGet data "input_headline" = some v := by
    unfold stateTruthy at hih
    cases hv : stateGet data "input_headline" with
    | none => rw [hv] at hih; exact absurd hih (by simp)
    | some v => exact ⟨v, rfl⟩
  have hihtr : truthy ihv = true := by
    unfold stateTruthy at hih
    rw [hihv] at hih
    exact hih
  refine ⟨?_, ?_, ?_, ?_, ?_, ?_, ?_⟩
  · unfold saveHeadlineData
    simp [hih]
  · unfold saveHeadlineData
    simp [hih]
  · unfold buildItemToSave
    rw [stateGet_rawAnalysisStep_other _ _ _ (by decide)]
    rw [stateGet_foldl_saveMapStep_of_notin _ _ _ _ (by decide)]
    rfl
  · unfold buildItemToSave
    rw [stateGet_rawAnalysisStep_other _ _ _ (by decide)]
    have hmem : ("input_headline", "input_headline") ∈ dbAttributeMapping := by decide
    have h2 := stateGet_foldl_saveMapStep_of_mem data dbAttributeMapping
      [("headline_id", JsValue.str uuid),
       ("input_headline", (stateGet data "input_headline").getD JsValue.null),
       ("created_at", JsValue.str ts)]
      ("input_headline", "input_headline") hmem (by decide)
    simp only at h2
    rw [h2, hihv]
    by_cases hs : isSkippedValue ihv
    · simp [hs, stateGet, hihv]
    · simp [hs]
  · unfold buildItemToSave
    rw [stateGet_rawAnalysisStep_other _ _ _ (by decide)]
    rw [stateGet_foldl_saveMapStep_of_notin _ _ _ _ (by decide)]
    rfl
  · intro me hme hne
    unfold buildItemToSave
    have h2 := stateGet_foldl_saveMapStep_of_mem data dbAttributeMapping
      [("headline_id", JsValue.str uuid),
       ("input_headline", (stateGet data "input_headline").getD JsValue.null),
       ("created_at", JsValue.str ts)]
      me hme (by decide)
    refine ⟨?_, ?_, ?_⟩
    · intro hv
      rw [stateGet_rawAnalysisStep_other _ _ _ (by fin_cases hme <;> simp_all), h2, hv]
      fin_cases hme <;> first | exact absurd rfl hne | rfl
    · intro v hv hs
      rw [stateGet_rawAnalysisStep_other _ _ _ (by fin_cases hme <;> simp_all), h2, hv]
      simp only [hs, if_true]
      fin_cases hme <;> first | exact absurd rfl hne | rfl
    · intro v hv hs
      rw [stateGet_rawAnalysisStep_other _ _ _ (by fin_cases hme <;> simp_all), h2, hv]
      simp [hs]
  · intro data2 h2
    unfold saveHeadlineData
    simp [h2]

/-- Witness for `saveHeadlineData_item_invariant` at a concrete package
with one whitespace-only attribute (omitted) and one real attribute
(written). -/
theorem saveHeadlineData_item_invariant_witness :
    stateGet (buildItemToSave
        [("input_headline", JsValue.str "Dog attacks 4-year-old causing injuries"),
         ("main_flipped_headline_from_state", JsValue.str "Dog involved in incident"),
         ("euphemism_reverted_headline", JsValue.str "   ")]
        "id-2" "2024-01-01T00:00:00.000Z") "headline_id" = some (JsValue.str "id-2")
    ∧ stateGet (buildItemToSave
        [("input_headline", JsValue.str "Dog attacks 4-year-old causing injuries"),
         ("main_flipped_headline_from_state", JsValue.str "Dog involved in incident"),
         ("euphemism_reverted_headline", JsValue.str "   ")]
        "id-2" "2024-01-01T00:00:00.000Z") "euphemism_reverted_db" = none
    ∧ stateGet (buildItemToSave
        [("input_headline", JsValue.str "Dog attacks 4-year-old causing injuries"),
         ("main_flipped_headline_from_state", JsValue.str "Dog involved in incident"),
         ("euphemism_reverted_headline", JsValue.str "   ")]
        "id-2" "2024-01-01T00:00:00.000Z") "flipped_headline"
        = some (JsValue.str "Dog involved in incident") := by
  have h := saveHeadlineData_item_invariant
    [("input_headline", JsValue.str "Dog attacks 4-year-old causing injuries"),
     ("main_flipped_headline_from_state", JsValue.str "Dog involved in incident"),
     ("euphemism_reverted_headline", JsValue.str "   ")]
    "id-2" "2024-01-01T00:00:00.000Z" (by decide)
  refine ⟨h.2.2.1, ?_, ?_⟩
  · exact (h.2.2.2.2.2.1 ("euphemism_reverted_headline", "euphemism_reverted_db")
      (by decide) (by decide)).2.1 (JsValue.str "   ") (by decide) (by decide)
  · exact (h.2.2.2.2.2.1 ("main_flipped_headline_from_state", "flipped_headline")
      (by decide) (by decide)).2.2 (JsValue.str "Dog involved in incident")
      (by decide) (by decide)

/-- On a well-formed graph the runner never fails with `unknownNode`
when started from a node id or the terminal marker: every run either
reaches the end or exhausts the ceiling. -/
theorem invokeGo_no_unknown {σ : Type} (g : RunnerGraph σ)
    (hwf : wellFormedGraph g = true) :
    ∀ (fuel : Nat) (cur : String) (s : σ),
      (cur ∈ g.nodes.map Prod.fst ∨ cur = endMarker) →
      (∃ s2, invokeGo g fuel cur s = Except.ok s2)
      ∨ invokeGo g fuel cur s = Except.error RunError.recursionLimitReached := by
  simp only [wellFormedGraph, Bool.and_eq_true, List.all_eq_true] at hwf
  obtain ⟨⟨h1, h2⟩, _h3⟩ := hwf
  intro fuel
  induction fuel with
  | zero =>
      intro cur s _hcur
      by_cases hend : cur = endMarker
      · exact Or.inl ⟨s, by simp [invokeGo, hend]⟩
      · exact Or.inr (by simp [invokeGo, hend])
  | succ fuel ih =>
      intro cur s hcur
      by_cases hend : cur = endMarker
      · exact Or.inl ⟨s, by simp [invokeGo, hend]⟩
      · rcases hcur with hcur | hcur
        · have hfind : (g.nodes.find? (fun e => e.1 == cur)).isSome = true := by
            rw [List.find?_isSome]
            obtain ⟨nd, hndmem, hndid⟩ := List.mem_map.mp hcur
            exact ⟨nd, hndmem, by simp [hndid]⟩
          obtain ⟨nd0, hnd0⟩ := Option.isSome_iff_exists.mp hfind
          have hnodeFn : nodeFn g cur = some nd0.2 := by simp [nodeFn, hnd0]
          have hnd0mem : nd0 ∈ g.nodes := List.mem_of_find?_eq_some hnd0
          have hnd0id : nd0.1 = cur := by simpa using List.find?_some hnd0
          have hnx : (nextNode g nd0.1).isSome = true := h1 nd0 hnd0mem
          rw [hnd0id] at hnx
          obtain ⟨nxt, hnxt⟩ := Option.isSome_iff_exists.mp hnx
          have hnxtvalid : nxt ∈ g.nodes.map Prod.fst ∨ nxt = endMarker := by
            obtain ⟨ed, hedfind⟩ : ∃ ed, g.edges.find? (fun e => e.1 == cur) = some ed := by
              cases hfe : g.edges.find? (fun e => e.1 == cur) with
              | none => simp [nextNode, hfe] at hnxt
              | some ed => exact ⟨ed, rfl⟩
            have hedmem : ed ∈ g.edges := List.mem_of_find?_eq_some hedfind
            have hed2 : ed.2 = nxt := by
              simpa [nextNode, hedfind] using hnxt
            have hor := h2 ed hedmem
            rw [hed2] at hor
            rcases (Bool.or_eq_true _ _).mp hor with h | h
            · exact Or.inr (by simpa using h)
            · exact Or.inl (by simpa using h)
          have hstep : invokeGo g (fuel + 1) cur s = invokeGo g fuel nxt (nd0.2 s) := by
            simp [invokeGo, hend, hnodeFn, hnxt]
          rw [hstep]
          exact ih nxt (nd0.2 s) hnxtvalid
        · exact absurd hcur hend

/-- CLAIM C8: the runner enforces the step-count ceiling on every run:
on a structurally well-formed graph, whenever the run does not reach
the terminal marker within the ceiling, `invoke` fails the whole run
with the diagnosable ceiling-exceeded error `recursionLimitReached` —
an `Except.error` carrying no state at all, so no truncated output is
ever returned silently. -/
theorem runner_step_ceiling {σ : Type} (g : RunnerGraph σ) (s0 : σ) (limit : Nat)
    (hwf : wellFormedGraph g = true)
    (hnoend : reachesEndWithin g s0 limit = false) :
    invoke g s0 limit = Except.error RunError.recursionLimitReached := by
  have hentry : g.entry ∈ g.nodes.map Prod.fst := by
    have h := (Bool.and_eq_true _ _).mp hwf
    simpa using h.2
  rcases invokeGo_no_unknown g hwf limit g.entry s0 (Or.inl hentry) with ⟨s2, h2⟩ | h2
  · rw [reachesEndWithin, h2] at hnoend
    simp at hnoend
  · exact h2

theorem runner_step_ceiling_witness :
    invoke linearGraph5 0 3 = Except.error RunError.recursionLimitReached :=
  runner_step_ceiling linearGraph5 0 3 (by decide) (by decide)

/-- CLAIM C9 counterexample: the configuration whose only node
references the missing local function "doesNotExist" does NOT make
graph construction fail — `buildGraph` succeeds, installing a
synthesized error-reporting node in place of the missing function, so
runs do begin against such a configuration. -/
theorem buildGraph_missing_function_not_fatal :
    buildGraph badLocalFnConfig
      = Except.ok { builtNodes :=
                      [("reverter", BuiltNode.missingLocalFn "reverter" "doesNotExist")],
                    entry := "reverter",
                    edges := [("reverter", "__end__")] } := rfl

/-- CLAIM C9 (amended): graph construction fails at startup only when
the configuration defines no nodes at all.  A node referencing a
missing local function is not fatal: construction succeeds and
installs a synthesized error-reporting node for it; a node whose type
is not one of the recognized step kinds likewise gets a synthesized
pass-through node, and the run proceeds. -/
theorem buildGraph_failure_characterization (cfg : GraphConfigM) :
    (∀ msg, buildGraph cfg = Except.error msg → cfg.nodeDefinitions = [])
    ∧ (cfg.nodeDefinitions ≠ [] →
        ∃ bg, buildGraph cfg = Except.ok bg
          ∧ ∀ nc ∈ cfg.nodeDefinitions,
              (∀ fn, nc.type = "local_function" → nc.functionName = some fn →
                customNodeFunctionNames.contains fn = false →
                (nc.id, BuiltNode.missingLocalFn nc.id fn) ∈ bg.builtNodes)
              ∧ (nc.type ≠ "llm_agent" → nc.type ≠ "local_function" →
                 nc.type ≠ "parallel_llm_group_coordinator" →
                 (nc.id, BuiltNode.passThrough nc.id nc.type) ∈ bg.builtNodes)) := by
  constructor
  · intro msg hmsg
    cases hnd : cfg.nodeDefinitions with
    | nil => rfl
    | cons a l => simp [buildGraph, hnd] at hmsg
  · intro hne
    have he : cfg.nodeDefinitions.isEmpty = false := by
      cases hnd : cfg.nodeDefinitions with
      | nil => exact absurd hnd hne
      | cons a l => rfl
    have hok : buildGraph cfg = Except.ok
        { builtNodes := cfg.nodeDefinitions.map (fun nc => (nc.id, buildNode nc))
          entry := match cfg.entryPointNodeId with
            | some e =>
                if e != "" && (cfg.nodeDefinitions.map NodeDefM.id).contains e then e
                else ((cfg.nodeDefinitions.head?).map NodeDefM.id).getD ""
            | none => ((cfg.nodeDefinitions.head?).map NodeDefM.id).getD ""
          edges := cfg.graphEdges.filter (fun e =>
            (cfg.nodeDefinitions.map NodeDefM.id).contains e.1
            && (e.2 == "__end__" || (cfg.nodeDefinitions.map NodeDefM.id).contains e.2)) } := by
      simp [buildGraph, he]
    refine ⟨_, hok, ?_⟩
    intro nc hnc
    constructor
    · intro fn htype hfn hmiss
      refine List.mem_map.mpr ⟨nc, hnc, ?_⟩
      show (nc.id, buildNode nc) = (nc.id, BuiltNode.missingLocalFn nc.id fn)
      have hb : buildNode nc = BuiltNode.missingLocalFn nc.id fn := by
        rw [buildNode, htype, hfn]
        rw [if_neg (by decide), if_pos rfl]
        simp only [hmiss, Bool.false_eq_true, if_false]
      rw [hb]
    · intro ht1 ht2 ht3
      refine List.mem_map.mpr ⟨nc, hnc, ?_⟩
      show (nc.id, buildNode nc) = (nc.id, BuiltNode.passThrough nc.id nc.type)
      have hb : buildNode nc = BuiltNode.passThrough nc.id nc.type := by
        rw [buildNode, if_neg ht1, if_neg ht2, if_neg ht3]
      rw [hb]

theorem buildGraph_failure_characterization_witness :
    (buildGraph badLocalFnConfig).isOk = true
    ∧ ("reverter", BuiltNode.missingLocalFn "reverter" "doesNotExist")
        ∈ ((buildGraph badLocalFnConfig).toOption.getD
            { builtNodes := [], entry := "", edges := [] }).builtNodes := by
  obtain ⟨bg, hok, hmem⟩ :=
    (buildGraph_failure_characterization badLocalFnConfig).2 (by decide)
  have hmiss := (hmem { id := "reverter",
                        displayName := "Reverter",
                        type := "local_function",
                        functionName := some "doesNotExist" } (by decide)).1
    "doesNotExist" rfl rfl (by decide)
  constructor
  · rw [hok]; rfl
  · rw [hok]
    simpa [Except.toOption] using hmiss

end NewsFrames
